import Mathlib

/-!
Verification of the fixed-width SIMD utility layer (the 128-bit
SSE2/SSSE3/SSE4.1/AVX512VL module `simd-128.h` and the 512-bit AVX512 module)
against its specification.

A vector register is modelled as an infinite bit stream `V := Nat → Bool`
(bit 0 is the least significant bit of the register, x86 little-endian bit
order); the 128-bit and 512-bit views simply restrict attention to indices
below the width.  Every intrinsic used by the code under scrutiny is embedded
as a function on `V` following the Intel semantics of the instruction; the
source's macros and inline functions are then defined as literal compositions
of those intrinsics.  Per-element shifts/rotates are uniform over lanes, so
their embeddings act on every `w`-bit group of the stream; lane-crossing
operations (shuffles, alignr, blends) are meaningful on indices below the
register width, and the theorems bound the bit index accordingly.
-/

/-- A vector register as a bit stream; bit 0 is the LSB (x86 bit order). -/
abbrev V : Type := Nat → Bool

/-- Assemble the natural number whose binary digits are `f 0, f 1, ..., f (n-1)`
(little endian).  This models reading back an `n`-bit integer from a register
or from a union overlay. -/
def bitsToNat (f : V) : Nat → Nat
  | 0 => 0
  | n + 1 => bitsToNat f n + (if f n then 2 ^ n else 0)

/-- Read the byte at byte index `i` of a register (models `uint8_t` views and
the per-byte control of PSHUFB). -/
def byteAt (v : V) (i : Nat) : Nat := bitsToNat (fun j => v (8 * i + j)) 8

/-- Read the 32-bit element at element index `i` (models the `u32[]` view of
the `m128_ovly`/`m512_ovly` unions). -/
def lane32 (i : Nat) (v : V) : Nat := bitsToNat (fun j => v (32 * i + j)) 32

/-- Read the 64-bit element at element index `i` (models the `u64[]` view of
the `m512_ovly` union). -/
def lane64 (i : Nat) (v : V) : Nat := bitsToNat (fun j => v (64 * i + j)) 64

/-! ### Intrinsic embeddings -/

/-- `_mm_or_si128` / `_mm512_or_si512`: bitwise OR. -/
def _mm_or_si128 (a b : V) : V := fun i => a i || b i

/-- `_mm_xor_si128`: bitwise XOR. -/
def _mm_xor_si128 (a b : V) : V := fun i => xor (a i) (b i)

/-- `_mm_and_si128`: bitwise AND. -/
def _mm_and_si128 (a b : V) : V := fun i => a i && b i

/-- Logical shift left by `c` bits inside each `w`-bit element (the
PSLLW/PSLLD/PSLLQ family; a count of `w` or more yields zero, as on the
hardware). -/
def vslli (w : Nat) (v : V) (c : Nat) : V :=
  fun b => if c ≤ b % w then v (b - c) else false

/-- Logical shift right by `c` bits inside each `w`-bit element (the
PSRLW/PSRLD/PSRLQ family; a count of `w` or more yields zero, as on the
hardware). -/
def vsrli (w : Nat) (v : V) (c : Nat) : V :=
  fun b => if b % w + c < w then v (b + c) else false

/-- Rotate right by `c` inside each `w`-bit element (AVX512 VPRORQ/VPRORD;
the count is taken modulo the element width). -/
def vror (w : Nat) (v : V) (c : Nat) : V :=
  fun b => v (b - b % w + (b % w + c) % w)

/-- Rotate left by `c` inside each `w`-bit element (AVX512 VPROLQ/VPROLD;
the count is taken modulo the element width). -/
def vrol (w : Nat) (v : V) (c : Nat) : V :=
  fun b => v (b - b % w + (b % w + (w - c % w)) % w)

def _mm_slli_epi16 (v : V) (c : Nat) : V := vslli 16 v c
def _mm_srli_epi16 (v : V) (c : Nat) : V := vsrli 16 v c
def _mm_slli_epi32 (v : V) (c : Nat) : V := vslli 32 v c
def _mm_srli_epi32 (v : V) (c : Nat) : V := vsrli 32 v c
def _mm_slli_epi64 (v : V) (c : Nat) : V := vslli 64 v c
def _mm_srli_epi64 (v : V) (c : Nat) : V := vsrli 64 v c

def _mm_ror_epi64 (v : V) (c : Nat) : V := vror 64 v c
def _mm_rol_epi64 (v : V) (c : Nat) : V := vrol 64 v c
def _mm_ror_epi32 (v : V) (c : Nat) : V := vror 32 v c
def _mm_rol_epi32 (v : V) (c : Nat) : V := vrol 32 v c
def _mm512_ror_epi64 (v : V) (c : Nat) : V := vror 64 v c
def _mm512_rol_epi64 (v : V) (c : Nat) : V := vrol 64 v c
def _mm512_ror_epi32 (v : V) (c : Nat) : V := vror 32 v c
def _mm512_rol_epi32 (v : V) (c : Nat) : V := vrol 32 v c

/-- `mm128_mov64_128` (MOVQ): the 64-bit integer `n` in element 0, upper bits
zeroed. -/
def mm128_mov64_128 (n : Nat) : V :=
  fun b => if b < 64 then n.testBit b else false

/-- `mm128_mov32_128` (MOVD): the 32-bit integer `n` in element 0, upper bits
zeroed. -/
def mm128_mov32_128 (n : Nat) : V :=
  fun b => if b < 32 then n.testBit b else false

/-- `u32_mov128_32` (MOVD to GPR): read back the low 32 bits as an integer. -/
def u32_mov128_32 (v : V) : Nat := bitsToNat v 32

/-- `_mm_set_epi64x( hi, lo )`. -/
def _mm_set_epi64x (hi lo : Nat) : V :=
  fun b => if b < 64 then lo.testBit b else if b < 128 then hi.testBit (b - 64) else false

/-- `m128_const_64( hi, lo )`: assign 64-bit integers to the two elements
(`_mm_set_epi64x` at the SSE2 tier; the SSE4.1 tier builds the same value with
`_mm_insert_epi64`). -/
def m128_const_64 (hi lo : Nat) : V := _mm_set_epi64x hi lo

/-- `_mm_shuffle_epi32( v, imm )` (PSHUFD), and its per-128-bit-lane AVX512
extension `_mm512_shuffle_epi32`: 32-bit element `d` of each lane is element
`imm[2d+1:2d]` of that lane. -/
def _mm_shuffle_epi32 (v : V) (imm : Nat) : V :=
  fun b => v (128 * (b / 128) + 32 * (imm / 4 ^ (b / 32 % 4) % 4) + b % 32)

/-- `_mm_shufflelo_epi16( v, imm )` (PSHUFLW): permute 16-bit elements 0-3 by
`imm`, keep elements 4-7. -/
def _mm_shufflelo_epi16 (v : V) (imm : Nat) : V :=
  fun b => if b / 16 < 4 then v (16 * (imm / 4 ^ (b / 16) % 4) + b % 16) else v b

/-- `_mm_shufflehi_epi16( v, imm )` (PSHUFHW): permute 16-bit elements 4-7 by
`imm`, keep elements 0-3. -/
def _mm_shufflehi_epi16 (v : V) (imm : Nat) : V :=
  fun b =>
    if 4 ≤ b / 16 ∧ b / 16 < 8 then
      v (16 * (4 + imm / 4 ^ (b / 16 - 4) % 4) + b % 16)
    else v b

/-- `_mm_shuffle_epi8( v, ctl )` (PSHUFB) and `_mm512_shuffle_epi8`: for each
byte position, if bit 7 of the control byte is set the result byte is zero,
otherwise it is the source byte selected by the low 4 control bits within the
same 128-bit lane. -/
def _mm_shuffle_epi8 (v ctl : V) : V :=
  fun b =>
    if 128 ≤ byteAt ctl (b / 8) then false
    else v (128 * (b / 8 / 16) + 8 * (byteAt ctl (b / 8) % 16) + b % 8)

/-- `_mm512_shuffle_epi8` shuffles bytes within each 128-bit lane exactly like
PSHUFB does. -/
def _mm512_shuffle_epi8 (v ctl : V) : V := _mm_shuffle_epi8 v ctl

/-- `_mm_alignr_epi8( a, b, c )` (PALIGNR): concatenate `a:b` (32 bytes,
`a` high), shift right by `c` bytes, return the low 16 bytes. -/
def _mm_alignr_epi8 (a b : V) (c : Nat) : V :=
  fun bit =>
    if bit / 8 + c < 16 then b (8 * (bit / 8 + c) + bit % 8)
    else if bit / 8 + c < 32 then a (8 * (bit / 8 + c - 16) + bit % 8)
    else false

/-- `_mm_srli_si128( v, c )` (PSRLDQ): shift right by `c` bytes, zero fill. -/
def _mm_srli_si128 (v : V) (c : Nat) : V :=
  fun bit => if bit / 8 + c < 16 then v (bit + 8 * c) else false

/-- `_mm_slli_si128( v, c )` (PSLLDQ): shift left by `c` bytes, zero fill. -/
def _mm_slli_si128 (v : V) (c : Nat) : V :=
  fun bit => if c ≤ bit / 8 then v (bit - 8 * c) else false

/-- `_mm512_alignr_epi64( a, b, c )` (VALIGNQ): concatenate `a:b` (16 qwords,
`a` high), shift right by `imm8[3:0]` qwords, return the low 8 qwords. -/
def _mm512_alignr_epi64 (a b : V) (c : Nat) : V :=
  fun bit =>
    if bit / 64 + c % 16 < 8 then b (64 * (bit / 64 + c % 16) + bit % 64)
    else if bit / 64 + c % 16 < 16 then a (64 * (bit / 64 + c % 16 - 8) + bit % 64)
    else false

/-- `_mm512_alignr_epi32( a, b, c )` (VALIGND): concatenate `a:b` (32 dwords,
`a` high), shift right by `imm8[4:0]` dwords, return the low 16 dwords. -/
def _mm512_alignr_epi32 (a b : V) (c : Nat) : V :=
  fun bit =>
    if bit / 32 + c % 32 < 16 then b (32 * (bit / 32 + c % 32) + bit % 32)
    else if bit / 32 + c % 32 < 32 then a (32 * (bit / 32 + c % 32 - 16) + bit % 32)
    else false

/-- `_mm512_mask_blend_epi32( k, a, b )`: 32-bit element `i` of the result is
element `i` of `b` when bit `i` of the mask is set, else element `i` of `a`. -/
def _mm512_mask_blend_epi32 (k : Nat) (a b : V) : V :=
  fun bit => if k.testBit (bit / 32) then b bit else a bit

/-- `_mm512_ternarylogic_epi64( a, b, c, imm )` (VPTERNLOGQ): every result bit
is the bit of `imm` indexed by `a·4 + b·2 + c` formed from the corresponding
bits of the three sources.  The operation is fully bitwise, so the `epi32`
form computes the same function. -/
def _mm512_ternarylogic_epi64 (a b c : V) (imm : Nat) : V :=
  fun bit => imm.testBit ((cond (a bit) 4 0) + (cond (b bit) 2 0) + (cond (c bit) 1 0))

/-- `_mm_ternarylogic_epi64` (AVX512VL backport of VPTERNLOGQ to 128 bits). -/
def _mm_ternarylogic_epi64 (a b c : V) (imm : Nat) : V :=
  _mm512_ternarylogic_epi64 a b c imm

/-- `_mm512_movm_epi64( k )`: 64-bit element `i` is all-ones when bit `i` of
the mask is set, else all-zero. -/
def _mm512_movm_epi64 (k : Nat) : V := fun bit => k.testBit (bit / 64)

/-- `m128_zero` (`_mm_setzero_si128()`). -/
def m128_zero : V := fun _ => false

/-- `m512_zero` (`_mm512_setzero_si512()`). -/
def m512_zero : V := fun _ => false

/-- `m512_neg1` (`_mm512_movm_epi64( 0xff )`). -/
def m512_neg1 : V := _mm512_movm_epi64 0xff

/-- Selector for the eight 64-bit arguments of `m512_const_64`, by element
index (argument `i0` is element 0). -/
def qword8 (i7 i6 i5 i4 i3 i2 i1 i0 : Nat) : Nat → Nat
  | 0 => i0
  | 1 => i1
  | 2 => i2
  | 3 => i3
  | 4 => i4
  | 5 => i5
  | 6 => i6
  | _ => i7

/-- `m512_const_64( i7, ..., i0 )` (part_000 lines 114-126): write the eight
64-bit integers into the `u64[]` view of a stack union and read the union back
as a 512-bit vector, so bit `b` of the result is bit `b % 64` of the argument
stored at element `b / 64`. -/
def m512_const_64 (i7 i6 i5 i4 i3 i2 i1 i0 : Nat) : V :=
  fun b => (qword8 i7 i6 i5 i4 i3 i2 i1 i0 (b / 64)).testBit (b % 64)

/-- `m128_const1_32( i )` (simd-128.h line 99): broadcast a 32-bit value,
`_mm_shuffle_epi32( mm128_mov32_128( i ), 0x00 )`. -/
def m128_const1_32 (i : Nat) : V := _mm_shuffle_epi32 (mm128_mov32_128 i) 0x00

/-! ### Source: bit rotations (simd-128.h lines 351-434, part_000 lines 372-375)

The source offers each 64/32-bit rotate at two capability tiers: a native
AVX512VL rotate instruction, and an SSE2 emulation `(v >> c) | (v << (w-c))`.
The 16-bit rotates exist only in the shift-or form. -/

def mm128_ror_64_avx512 (v : V) (c : Nat) : V := _mm_ror_epi64 v c
def mm128_rol_64_avx512 (v : V) (c : Nat) : V := _mm_rol_epi64 v c
def mm128_ror_32_avx512 (v : V) (c : Nat) : V := _mm_ror_epi32 v c
def mm128_rol_32_avx512 (v : V) (c : Nat) : V := _mm_rol_epi32 v c

def mm128_ror_64_sse2 (v : V) (c : Nat) : V :=
  _mm_or_si128 (_mm_srli_epi64 v c) (_mm_slli_epi64 v (64 - c))

def mm128_rol_64_sse2 (v : V) (c : Nat) : V :=
  _mm_or_si128 (_mm_slli_epi64 v c) (_mm_srli_epi64 v (64 - c))

def mm128_ror_32_sse2 (v : V) (c : Nat) : V :=
  _mm_or_si128 (_mm_srli_epi32 v c) (_mm_slli_epi32 v (32 - c))

def mm128_rol_32_sse2 (v : V) (c : Nat) : V :=
  _mm_or_si128 (_mm_slli_epi32 v c) (_mm_srli_epi32 v (32 - c))

def mm128_ror_16 (v : V) (c : Nat) : V :=
  _mm_or_si128 (_mm_srli_epi16 v c) (_mm_slli_epi16 v (16 - c))

def mm128_rol_16 (v : V) (c : Nat) : V :=
  _mm_or_si128 (_mm_slli_epi16 v c) (_mm_srli_epi16 v (16 - c))

def mm512_ror_64 (v : V) (c : Nat) : V := _mm512_ror_epi64 v c
def mm512_rol_64 (v : V) (c : Nat) : V := _mm512_rol_epi64 v c
def mm512_ror_32 (v : V) (c : Nat) : V := _mm512_ror_epi32 v c
def mm512_rol_32 (v : V) (c : Nat) : V := _mm512_rol_epi32 v c

/-- The AVX512VL tier of `mm128_rorx2_64` (simd-128.h lines 358-360).  The
macro body is the two expression statements
`_mm_ror_epi64( v0, c ); _mm_ror_epi64( v1, c )`: the rotated values are
computed and discarded, no assignment to `v1`/`v0` takes place, so the net
effect of executing the macro is that both variables keep their old values.
The returned pair is (v1, v0) after the macro body has run. -/
def mm128_rorx2_64_avx512 (v1 v0 : V) (c : Nat) : V × V :=
  let _t0 := _mm_ror_epi64 v0 c
  let _t1 := _mm_ror_epi64 v1 c
  (v1, v0)

/-! ### Source: ternary logic (part_000 lines 248-296, simd-128.h lines 255-273) -/

def mm512_xor3 (a b c : V) : V := _mm512_ternarylogic_epi64 a b c 0x96
def mm512_and3 (a b c : V) : V := _mm512_ternarylogic_epi64 a b c 0x80
def mm512_or3 (a b c : V) : V := _mm512_ternarylogic_epi64 a b c 0xfe
def mm512_xorand (a b c : V) : V := _mm512_ternarylogic_epi64 a b c 0x78
def mm512_andxor (a b c : V) : V := _mm512_ternarylogic_epi64 a b c 0x60
def mm512_xoror (a b c : V) : V := _mm512_ternarylogic_epi64 a b c 0x1e
def mm512_xorandnot (a b c : V) : V := _mm512_ternarylogic_epi64 a b c 0xd2
def mm512_orand (a b c : V) : V := _mm512_ternarylogic_epi64 a b c 0xf8
def mm512_nor (a b : V) : V := _mm512_ternarylogic_epi64 a b b 0x01
def mm512_xnor (a b : V) : V := _mm512_ternarylogic_epi64 a b b 0x81
def mm512_nand (a b : V) : V := _mm512_ternarylogic_epi64 a b b 0xef

def mm128_xor3_avx512vl (a b c : V) : V := _mm_ternarylogic_epi64 a b c 0x96
def mm128_xorand_avx512vl (a b c : V) : V := _mm_ternarylogic_epi64 a b c 0x78
def mm128_xor3_sse2 (a b c : V) : V := _mm_xor_si128 a (_mm_xor_si128 b c)
def mm128_xorand_sse2 (a b c : V) : V := _mm_xor_si128 a (_mm_and_si128 b c)

/-! ### Source: endian byte swap (simd-128.h lines 514-575, part_000 lines 380-399) -/

def mm128_bswap_64_ssse3 (v : V) : V :=
  _mm_shuffle_epi8 v (m128_const_64 0x08090a0b0c0d0e0f 0x0001020304050607)

def mm128_bswap_32_ssse3 (v : V) : V :=
  _mm_shuffle_epi8 v (m128_const_64 0x0c0d0e0f08090a0b 0x0405060700010203)

def mm128_bswap_64_sse2 (v : V) : V :=
  _mm_shufflehi_epi16
    (_mm_shufflelo_epi16
      (_mm_or_si128 (_mm_slli_epi16 v 8) (_mm_srli_epi16 v 8)) 0x1b) 0x1b

def mm128_bswap_32_sse2 (v : V) : V :=
  _mm_shufflehi_epi16
    (_mm_shufflelo_epi16
      (_mm_or_si128 (_mm_slli_epi16 v 8) (_mm_srli_epi16 v 8)) 0xb1) 0xb1

def mm128_bswap_16_sse2 (v : V) : V :=
  _mm_or_si128 (_mm_slli_epi16 v 8) (_mm_srli_epi16 v 8)

def mm512_bswap_64 (v : V) : V :=
  _mm512_shuffle_epi8 v
    (m512_const_64 0x38393a3b3c3d3e3f 0x3031323334353637
                   0x28292a2b2c2d2e2f 0x2021222324252627
                   0x18191a1b1c1d1e1f 0x1011121314151617
                   0x08090a0b0c0d0e0f 0x0001020304050607)

def mm512_bswap_32 (v : V) : V :=
  _mm512_shuffle_epi8 v
    (m512_const_64 0x3c3d3e3f38393a3b 0x3435363730313233
                   0x2c2d2e2f28292a2b 0x2425262720212223
                   0x1c1d1e1f18191a1b 0x1415161710111213
                   0x0c0d0e0f08090a0b 0x0405060700010203)

def mm512_bswap_16 (v : V) : V :=
  _mm512_shuffle_epi8 v
    (m512_const_64 0x3e3f3c3d3a3b3839 0x3637343532333031
                   0x2e2f2c2d2a2b2829 0x2627242522232021
                   0x1e1f1c1d1a1b1819 0x1617141512131011
                   0x0e0f0c0d0a0b0809 0x0607040502030001)

/-! ### Source: two-input concatenated shuffle (simd-128.h lines 619-643) -/

def mm128_shufl2r_64_ssse3 (v1 v2 : V) : V := _mm_alignr_epi8 v2 v1 8
def mm128_shufl2l_64_ssse3 (v1 v2 : V) : V := _mm_alignr_epi8 v1 v2 8

def mm128_shufl2r_64_sse2 (v1 v2 : V) : V :=
  _mm_or_si128 (_mm_srli_si128 v1 8) (_mm_slli_si128 v2 8)

def mm128_shufl2l_64_sse2 (v1 v2 : V) : V :=
  _mm_or_si128 (_mm_slli_si128 v1 8) (_mm_srli_si128 v2 8)

/-! ### Source: shuffle-rotate of whole-vector elements
(part_000 lines 459-489, simd-128.h lines 454-459) -/

def mm512_shuflr_64 (v : V) : V := _mm512_alignr_epi64 v v 1
def mm512_shufll_64 (v : V) : V := _mm512_alignr_epi64 v v 7
def mm512_shuflr_128 (v : V) : V := _mm512_alignr_epi64 v v 2
def mm512_shufll_128 (v : V) : V := _mm512_alignr_epi64 v v 6
def mm512_swap_256 (v : V) : V := _mm512_alignr_epi64 v v 4
def mm512_shuflr_32 (v : V) : V := _mm512_alignr_epi32 v v 1
def mm512_shufll_32 (v : V) : V := _mm512_alignr_epi32 v v 15

def mm128_shuflr_32 (v : V) : V := _mm_shuffle_epi32 v 0x39
def mm128_shufll_32 (v : V) : V := _mm_shuffle_epi32 v 0x93

/-! ### Source: diagonal blend (part_000 lines 311-315) -/

/-- `mm512_diagonal128_32( v3, v2, v1, v0 )`: blend 4 32-bit elements from
each 128-bit lane of 4 vectors. -/
def mm512_diagonal128_32 (v3 v2 v1 v0 : V) : V :=
  _mm512_mask_blend_epi32 0x3333
    (_mm512_mask_blend_epi32 0x4444 v3 v2)
    (_mm512_mask_blend_epi32 0x1111 v1 v0)

/-! ### Source: SSE4.1 insert/extract (simd-128.h lines 166-179) -/

/-- `mm128_xim_32( v1, v2, c )`: integer-cast `_mm_insert_ps`.  Control byte:
`c[3:0]` zero mask, `c[5:4]` destination element, `c[7:6]` source element. -/
def mm128_xim_32 (v1 v2 : V) (c : Nat) : V :=
  fun bit =>
    if (c % 16).testBit (bit / 32) then false
    else if bit / 32 = c / 16 % 4 then v2 (32 * (c / 64 % 4) + bit % 32)
    else v1 bit

/-- `mm128_insert_32( v, i, c )`: insert the 32-bit integer `i` into `v` at
element `c`, `mm128_xim_32( v, mm128_mov32_128( i ), c<<4 )`. -/
def mm128_insert_32 (v : V) (i c : Nat) : V :=
  mm128_xim_32 v (mm128_mov32_128 i) (c * 16)

/-- `mm128_extract_32( v, c )`: extract 32-bit element `c` as an integer,
`u32_mov128_32( mm128_xim_32( v, v, c<<6 ) )`. -/
def mm128_extract_32 (v : V) (c : Nat) : Nat :=
  u32_mov128_32 (mm128_xim_32 v v (c * 64))

/-! ### Source: block memory helpers (simd-128.h lines 246-253, part_000
lines 220-227)

Memory holding vector-sized slots is modelled as `Nat → V` (slot index to
vector value); a pointer is a base slot index.  Each C loop
`for ( int i = 0; i < n; i++ ) dst[i] = ...` is embedded as a recursion on the
number of iterations, which is `n.toNat` for the `int` argument `n` (zero
iterations when `n <= 0`). -/

/-- The loop of `memset_128`/`memset_512`: iterations `0..k-1` store `a` into
slots `d..d+k-1`, in order. -/
def setLoop (mem : Nat → V) (d : Nat) (a : V) : Nat → (Nat → V)
  | 0 => mem
  | k + 1 => fun j => if j = d + k then a else setLoop mem d a k j

/-- The loop of `memcpy_128`/`memcpy_512`: iteration `k` reads slot `s+k` from
the current memory and stores it into slot `d+k`. -/
def cpyLoop (mem : Nat → V) (d s : Nat) : Nat → (Nat → V)
  | 0 => mem
  | k + 1 => fun j =>
      if j = d + k then cpyLoop mem d s k (s + k) else cpyLoop mem d s k j

def memset_zero_128 (mem : Nat → V) (dst : Nat) (n : Int) : Nat → V :=
  setLoop mem dst m128_zero n.toNat

def memset_128 (mem : Nat → V) (dst : Nat) (a : V) (n : Int) : Nat → V :=
  setLoop mem dst a n.toNat

def memcpy_128 (mem : Nat → V) (dst src : Nat) (n : Int) : Nat → V :=
  cpyLoop mem dst src n.toNat

def memset_zero_512 (mem : Nat → V) (dst : Nat) (n : Int) : Nat → V :=
  setLoop mem dst m512_zero n.toNat

def memset_512 (mem : Nat → V) (dst : Nat) (a : V) (n : Int) : Nat → V :=
  setLoop mem dst a n.toNat

def memcpy_512 (mem : Nat → V) (dst src : Nat) (n : Int) : Nat → V :=
  cpyLoop mem dst src n.toNat

/-- Read the 16-bit element at element index `i` (the per-word control view of
VPERMW). -/
def wordAt (v : V) (i : Nat) : Nat := bitsToNat (fun j => v (16 * i + j)) 16

/-- `_mm512_permutexvar_epi16( idx, v )` (VPERMW): 16-bit element `i` of the
result is element `idx_i mod 32` of `v` (the low 5 bits of each index word
select the source element, across the whole vector). -/
def _mm512_permutexvar_epi16 (idx v : V) : V :=
  fun b => v (16 * (wordAt idx (b / 16) % 32) + b % 16)

/-- `_mm_insert_epi64( v, n, idx )` (PINSRQ): replace 64-bit element
`idx mod 2` of `v` with `n`. -/
def _mm_insert_epi64 (v : V) (n idx : Nat) : V :=
  fun b => if b / 64 = idx % 2 then n.testBit (b % 64) else v b

/-- The SSE4.1 tier of `m128_const_64( hi, lo )` (simd-128.h lines 104-105):
`_mm_insert_epi64( mm128_mov64_128( lo ), hi, 1 )`. -/
def m128_const_64_sse41 (hi lo : Nat) : V :=
  _mm_insert_epi64 (mm128_mov64_128 lo) hi 1

/-! ### Source: byte rotations within 64/32-bit lanes (simd-128.h lines
477-509).  Each is offered at an SSSE3 tier (PSHUFB with a fixed byte table)
and a fallback tier `mm128_ror_64`/`mm128_ror_32` (itself AVX512VL native or
SSE2 shift-or). -/

def mm128_shuflr64_24_ssse3 (v : V) : V :=
  _mm_shuffle_epi8 v (_mm_set_epi64x 0x0a09080f0e0d0c0b 0x0201000706050403)

def mm128_shuflr64_16_ssse3 (v : V) : V :=
  _mm_shuffle_epi8 v (_mm_set_epi64x 0x09080f0e0d0c0b0a 0x0100070605040302)

def mm128_swap32_16_ssse3 (v : V) : V :=
  _mm_shuffle_epi8 v (_mm_set_epi64x 0x0d0c0f0e09080b0a 0x0504070601000302)

def mm128_shuflr32_8_ssse3 (v : V) : V :=
  _mm_shuffle_epi8 v (_mm_set_epi64x 0x0c0f0e0d080b0a09 0x0407060500030201)

/-! ### Source: two-output 256-bit rotates (simd-128.h lines 676-754)

Procedure macros with two inputs and two outputs; the returned pair is
(v1, v2) after the macro body has run.  Each tier computes its temporary
before overwriting the operands, so every right-hand side reads the original
values. -/

def mm128_vror256_64_ssse3 (v1 v2 : V) : V × V :=
  let t := _mm_alignr_epi8 v1 v2 8
  (_mm_alignr_epi8 v2 v1 8, t)

def mm128_vror256_64_sse2 (v1 v2 : V) : V × V :=
  let t := _mm_or_si128 (_mm_srli_si128 v1 8) (_mm_slli_si128 v2 8)
  (t, _mm_or_si128 (_mm_srli_si128 v2 8) (_mm_slli_si128 v1 8))

def mm128_vrol256_64_ssse3 (v1 v2 : V) : V × V :=
  let t := _mm_alignr_epi8 v1 v2 8
  (t, _mm_alignr_epi8 v2 v1 8)

def mm128_vrol256_64_sse2 (v1 v2 : V) : V × V :=
  let t := _mm_or_si128 (_mm_slli_si128 v1 8) (_mm_srli_si128 v2 8)
  (t, _mm_or_si128 (_mm_slli_si128 v2 8) (_mm_srli_si128 v1 8))

/-! ### Source: block byte swap (simd-128.h lines 529-554 and 577-599)

Eight sequential statements `d[i] = bswap( s[i] )`, i = 0..7; `d` and `s` are
pointers that may refer to the same memory, so each statement reads the
current memory state.  The SSSE3 tier hoists the shuffle control into a local
and applies PSHUFB per slot — the same function as the single-vector SSSE3
byte swap; the SSE2 tier calls the SSE2 single-vector byte swap per slot. -/

/-- The unrolled loop shared by the block byte swaps: iteration `k` stores
`f` of slot `s+k` (read from the current memory) into slot `d+k`. -/
def bswapLoop (f : V → V) (mem : Nat → V) (d s : Nat) : Nat → (Nat → V)
  | 0 => mem
  | k + 1 => fun j =>
      if j = d + k then f (bswapLoop f mem d s k (s + k)) else bswapLoop f mem d s k j

def mm128_block_bswap_64_ssse3 (mem : Nat → V) (d s : Nat) : Nat → V :=
  bswapLoop mm128_bswap_64_ssse3 mem d s 8

def mm128_block_bswap_64_sse2 (mem : Nat → V) (d s : Nat) : Nat → V :=
  bswapLoop mm128_bswap_64_sse2 mem d s 8

def mm128_block_bswap_32_ssse3 (mem : Nat → V) (d s : Nat) : Nat → V :=
  bswapLoop mm128_bswap_32_ssse3 mem d s 8

def mm128_block_bswap_32_sse2 (mem : Nat → V) (d s : Nat) : Nat → V :=
  bswapLoop mm128_bswap_32_sse2 mem d s 8

/-! ### Source: remaining whole-vector shuffle-rotates
(part_000 lines 491-503, simd-128.h lines 454-456) -/

def mm512_shuflr_16 (v : V) : V :=
  _mm512_permutexvar_epi16
    (m512_const_64 0x0000001F001E001D 0x001C001B001A0019
                   0x0018001700160015 0x0014001300120011
                   0x0010000F000E000D 0x000C000B000A0009
                   0x0008000700060005 0x0004000300020001) v

def mm512_shufll_16 (v : V) : V :=
  _mm512_permutexvar_epi16
    (m512_const_64 0x001E001D001C001B 0x001A001900180017
                   0x0016001500140013 0x001200110010000F
                   0x000E000D000C000B 0x000A000900080007
                   0x0006000500040003 0x000200010000001F) v

def mm128_swap_64 (v : V) : V := _mm_shuffle_epi32 v 0x4e
def mm128_shuflr_64 (v : V) : V := mm128_swap_64 v
def mm128_shufll_64 (v : V) : V := mm128_swap_64 v

/-! ## Lemmas and theorems -/

theorem bitsToNat_congr (f g : V) (n : Nat) (h : ∀ j, j < n → f j = g j) :
    bitsToNat f n = bitsToNat g n := by
  induction n with
  | zero => rfl
  | succ n ih =>
      simp only [bitsToNat]
      rw [ih (fun j hj => h j (by omega)), h n (by omega)]

theorem bitsToNat_testBit (m k : Nat) : ∀ n, bitsToNat (fun j => m.testBit (k + j)) n =
    m / 2 ^ k % 2 ^ n := by
  intro n
  induction n with
  | zero => simp [bitsToNat, Nat.mod_one]
  | succ n ih =>
      simp only [bitsToNat, ih]
      have hsplit : m / 2 ^ k % 2 ^ (n + 1) =
          m / 2 ^ k % 2 ^ n + 2 ^ n * (m / 2 ^ k / 2 ^ n % 2) := by
        rw [pow_succ, Nat.mod_mul]
      have hdd : m / 2 ^ k / 2 ^ n = m / 2 ^ (k + n) := by
        rw [Nat.div_div_eq_div_mul, pow_add]
      have htb : m.testBit (k + n) = decide (m / 2 ^ (k + n) % 2 = 1) :=
        Nat.testBit_to_div_mod
      rcases Nat.mod_two_eq_zero_or_one (m / 2 ^ (k + n)) with h2 | h2 <;>
        simp [hsplit, hdd, htb, h2, Nat.mul_comm]

theorem bitsToNat_lt (f : V) : ∀ n, bitsToNat f n < 2 ^ n := by
  intro n
  induction n with
  | zero => simp [bitsToNat]
  | succ n ih =>
      simp only [bitsToNat]
      have : (2 : Nat) ^ (n + 1) = 2 ^ n + 2 ^ n := by rw [pow_succ]; omega
      split <;> omega

theorem ror64_sse2_eq_avx512 (v : V) (c : Nat) (hc : c < 64) (b : Nat) :
    mm128_ror_64_sse2 v c b = mm128_ror_64_avx512 v c b := by
  simp only [mm128_ror_64_sse2, mm128_ror_64_avx512, _mm_or_si128, _mm_srli_epi64,
    _mm_slli_epi64, _mm_ror_epi64, vsrli, vslli, vror]
  split_ifs <;>
    first
      | (simp only [Bool.or_false, Bool.false_or]; exact congrArg v (by omega))
      | (exfalso; omega)

theorem ror32_sse2_eq_avx512 (v : V) (c : Nat) (hc : c < 32) (b : Nat) :
    mm128_ror_32_sse2 v c b = mm128_ror_32_avx512 v c b := by
  simp only [mm128_ror_32_sse2, mm128_ror_32_avx512, _mm_or_si128, _mm_srli_epi32,
    _mm_slli_epi32, _mm_ror_epi32, vsrli, vslli, vror]
  split_ifs <;>
    first
      | (simp only [Bool.or_false, Bool.false_or]; exact congrArg v (by omega))
      | (exfalso; omega)

theorem rol64_sse2_eq_avx512 (v : V) (c : Nat) (hc : c < 64) (b : Nat) :
    mm128_rol_64_sse2 v c b = mm128_rol_64_avx512 v c b := by
  simp only [mm128_rol_64_sse2, mm128_rol_64_avx512, _mm_or_si128, _mm_srli_epi64,
    _mm_slli_epi64, _mm_rol_epi64, vsrli, vslli, vrol]
  split_ifs <;>
    first
      | (simp only [Bool.or_false, Bool.false_or]; exact congrArg v (by omega))
      | (exfalso; omega)

theorem rol32_sse2_eq_avx512 (v : V) (c : Nat) (hc : c < 32) (b : Nat) :
    mm128_rol_32_sse2 v c b = mm128_rol_32_avx512 v c b := by
  simp only [mm128_rol_32_sse2, mm128_rol_32_avx512, _mm_or_si128, _mm_srli_epi32,
    _mm_slli_epi32, _mm_rol_epi32, vsrli, vslli, vrol]
  split_ifs <;>
    first
      | (simp only [Bool.or_false, Bool.false_or]; exact congrArg v (by omega))
      | (exfalso; omega)

theorem vrol_vror_64 (v : V) (c b : Nat) :
    vrol 64 (vror 64 v c) c b = v b := by
  simp only [vrol, vror]
  exact congrArg v (by omega)

theorem vrol_vror_32 (v : V) (c b : Nat) :
    vrol 32 (vror 32 v c) c b = v b := by
  simp only [vrol, vror]
  exact congrArg v (by omega)

theorem rol64_ror64_sse2 (v : V) (c : Nat) (hc : c < 64) (b : Nat) :
    mm128_rol_64_sse2 (mm128_ror_64_sse2 v c) c b = v b := by
  simp only [mm128_rol_64_sse2, mm128_ror_64_sse2, _mm_or_si128, _mm_srli_epi64,
    _mm_slli_epi64, vsrli, vslli]
  split_ifs <;>
    first
      | (simp only [Bool.or_false, Bool.false_or]; exact congrArg v (by omega))
      | (exfalso; omega)

theorem rol32_ror32_sse2 (v : V) (c : Nat) (hc : c < 32) (b : Nat) :
    mm128_rol_32_sse2 (mm128_ror_32_sse2 v c) c b = v b := by
  simp only [mm128_rol_32_sse2, mm128_ror_32_sse2, _mm_or_si128, _mm_srli_epi32,
    _mm_slli_epi32, vsrli, vslli]
  split_ifs <;>
    first
      | (simp only [Bool.or_false, Bool.false_or]; exact congrArg v (by omega))
      | (exfalso; omega)

theorem rol16_ror16 (v : V) (c : Nat) (hc : c < 16) (b : Nat) :
    mm128_rol_16 (mm128_ror_16 v c) c b = v b := by
  simp only [mm128_rol_16, mm128_ror_16, _mm_or_si128, _mm_srli_epi16,
    _mm_slli_epi16, vsrli, vslli]
  split_ifs <;>
    first
      | (simp only [Bool.or_false, Bool.false_or]; exact congrArg v (by omega))
      | (exfalso; omega)

theorem shuffle_epi8_apply (v ctl : V) (b i r c : Nat) (hb : b = 8 * i + r)
    (hr : r < 8) (hc : byteAt ctl i = c) (hlt : c < 128) :
    _mm_shuffle_epi8 v ctl b = v (128 * (i / 16) + 8 * (c % 16) + r) := by
  subst hb
  simp only [_mm_shuffle_epi8]
  rw [show (8 * i + r) / 8 = i by omega, hc, if_neg (by omega),
    show (8 * i + r) % 8 = r by omega]

theorem bswap64_tbl_128 : ∀ i, i < 16 →
    byteAt (m128_const_64 0x08090a0b0c0d0e0f 0x0001020304050607) i =
      8 * (i / 8) + (7 - i % 8) := by decide

theorem bswap32_tbl_128 : ∀ i, i < 16 →
    byteAt (m128_const_64 0x0c0d0e0f08090a0b 0x0405060700010203) i =
      4 * (i / 4) + (3 - i % 4) := by decide

theorem bswap64_tbl_512 : ∀ i, i < 64 →
    byteAt (m512_const_64 0x38393a3b3c3d3e3f 0x3031323334353637
                          0x28292a2b2c2d2e2f 0x2021222324252627
                          0x18191a1b1c1d1e1f 0x1011121314151617
                          0x08090a0b0c0d0e0f 0x0001020304050607) i =
      16 * (i / 16) + 8 * (i % 16 / 8) + (7 - i % 8) := by decide

theorem bswap32_tbl_512 : ∀ i, i < 64 →
    byteAt (m512_const_64 0x3c3d3e3f38393a3b 0x3435363730313233
                          0x2c2d2e2f28292a2b 0x2425262720212223
                          0x1c1d1e1f18191a1b 0x1415161710111213
                          0x0c0d0e0f08090a0b 0x0405060700010203) i =
      16 * (i / 16) + 4 * (i % 16 / 4) + (3 - i % 4) := by decide

theorem bswap16_tbl_512 : ∀ i, i < 64 →
    byteAt (m512_const_64 0x3e3f3c3d3a3b3839 0x3637343532333031
                          0x2e2f2c2d2a2b2829 0x2627242522232021
                          0x1e1f1c1d1a1b1819 0x1617141512131011
                          0x0e0f0c0d0a0b0809 0x0607040502030001) i =
      16 * (i / 16) + 2 * (i % 16 / 2) + (1 - i % 2) := by decide

/-- Byte-level action of the SSSE3 `mm128_bswap_64`: byte `i` of the result is
byte `8*(i/8) + (7 - i%8)` of the source (byte reversal within each qword). -/
theorem mm128_bswap_64_ssse3_map (v : V) (b i r : Nat) (hb : b = 8 * i + r)
    (hi : i < 16) (hr : r < 8) :
    mm128_bswap_64_ssse3 v b = v (8 * (8 * (i / 8) + (7 - i % 8)) + r) := by
  rw [mm128_bswap_64_ssse3,
    shuffle_epi8_apply v _ b i r _ hb hr (bswap64_tbl_128 i hi) (by omega)]
  exact congrArg v (by omega)

/-- Byte-level action of the SSSE3 `mm128_bswap_32`: byte reversal within each
dword. -/
theorem mm128_bswap_32_ssse3_map (v : V) (b i r : Nat) (hb : b = 8 * i + r)
    (hi : i < 16) (hr : r < 8) :
    mm128_bswap_32_ssse3 v b = v (8 * (4 * (i / 4) + (3 - i % 4)) + r) := by
  rw [mm128_bswap_32_ssse3,
    shuffle_epi8_apply v _ b i r _ hb hr (bswap32_tbl_128 i hi) (by omega)]
  exact congrArg v (by omega)

/-- Byte-level action of `mm512_bswap_64`: byte reversal within each qword. -/
theorem mm512_bswap_64_map (v : V) (b i r : Nat) (hb : b = 8 * i + r)
    (hi : i < 64) (hr : r < 8) :
    mm512_bswap_64 v b = v (8 * (8 * (i / 8) + (7 - i % 8)) + r) := by
  rw [mm512_bswap_64, _mm512_shuffle_epi8,
    shuffle_epi8_apply v _ b i r _ hb hr (bswap64_tbl_512 i hi) (by omega)]
  exact congrArg v (by omega)

/-- Byte-level action of `mm512_bswap_32`: byte reversal within each dword. -/
theorem mm512_bswap_32_map (v : V) (b i r : Nat) (hb : b = 8 * i + r)
    (hi : i < 64) (hr : r < 8) :
    mm512_bswap_32 v b = v (8 * (4 * (i / 4) + (3 - i % 4)) + r) := by
  rw [mm512_bswap_32, _mm512_shuffle_epi8,
    shuffle_epi8_apply v _ b i r _ hb hr (bswap32_tbl_512 i hi) (by omega)]
  exact congrArg v (by omega)

/-- Byte-level action of `mm512_bswap_16`: byte reversal within each word. -/
theorem mm512_bswap_16_map (v : V) (b i r : Nat) (hb : b = 8 * i + r)
    (hi : i < 64) (hr : r < 8) :
    mm512_bswap_16 v b = v (8 * (2 * (i / 2) + (1 - i % 2)) + r) := by
  rw [mm512_bswap_16, _mm512_shuffle_epi8,
    shuffle_epi8_apply v _ b i r _ hb hr (bswap16_tbl_512 i hi) (by omega)]
  exact congrArg v (by omega)

/-- The byte-swap-within-words step
`_mm_or_si128( _mm_slli_epi16( v, 8 ), _mm_srli_epi16( v, 8 ) )` exchanges the
two bytes of every 16-bit element. -/
theorem swap8in16_apply (v : V) (b w h r : Nat) (hb : b = 16 * w + 8 * h + r)
    (hh : h < 2) (hr : r < 8) :
    _mm_or_si128 (_mm_slli_epi16 v 8) (_mm_srli_epi16 v 8) b =
      v (16 * w + 8 * (1 - h) + r) := by
  subst hb
  simp only [_mm_or_si128, _mm_slli_epi16, _mm_srli_epi16, vslli, vsrli]
  interval_cases h
  · rw [if_neg (by omega), if_pos (by omega)]
    simp only [Bool.false_or]
    exact congrArg v (by omega)
  · rw [if_pos (by omega), if_neg (by omega)]
    simp only [Bool.or_false]
    exact congrArg v (by omega)

theorem shufflelo_apply_low (v : V) (imm b d s e : Nat) (hb : b = 16 * d + s)
    (hd : d < 4) (hs : s < 16) (he : imm / 4 ^ d % 4 = e) :
    _mm_shufflelo_epi16 v imm b = v (16 * e + s) := by
  subst hb
  simp only [_mm_shufflelo_epi16]
  rw [show (16 * d + s) / 16 = d by omega, if_pos hd, he,
    show (16 * d + s) % 16 = s by omega]

theorem shufflelo_apply_high (v : V) (imm b : Nat) (hb : 4 ≤ b / 16) :
    _mm_shufflelo_epi16 v imm b = v b := by
  simp only [_mm_shufflelo_epi16]
  rw [if_neg (by omega)]

theorem shufflehi_apply_act (v : V) (imm b d s e : Nat) (hb : b = 16 * (4 + d) + s)
    (hd : d < 4) (hs : s < 16) (he : imm / 4 ^ d % 4 = e) :
    _mm_shufflehi_epi16 v imm b = v (16 * (4 + e) + s) := by
  subst hb
  simp only [_mm_shufflehi_epi16]
  rw [show (16 * (4 + d) + s) / 16 = 4 + d by omega, if_pos (by omega),
    show 4 + d - 4 = d by omega, he, show (16 * (4 + d) + s) % 16 = s by omega]

theorem shufflehi_apply_pass (v : V) (imm b : Nat) (hb : b / 16 < 4 ∨ 8 ≤ b / 16) :
    _mm_shufflehi_epi16 v imm b = v b := by
  simp only [_mm_shufflehi_epi16]
  rw [if_neg (by omega)]

/-- Word selectors of the immediate `0x1b` = `_MM_SHUFFLE(0,1,2,3)`:
full reversal of the four elements. -/
theorem sel_1b : ∀ d, d < 4 → (0x1b : Nat) / 4 ^ d % 4 = 3 - d := by decide

/-- Word selectors of the immediate `0xb1` = `_MM_SHUFFLE(2,3,0,1)`:
exchange adjacent element pairs. -/
theorem sel_b1 : ∀ d, d < 4 → (0xb1 : Nat) / 4 ^ d % 4 = d + 1 - 2 * (d % 2) := by
  decide

/-- Byte-level action of the SSE2 `mm128_bswap_64`: byte reversal within each
qword, identical to the SSSE3 tier. -/
theorem mm128_bswap_64_sse2_map (v : V) (b q k r : Nat)
    (hb : b = 64 * q + 8 * k + r) (hq : q < 2) (hk : k < 8) (hr : r < 8) :
    mm128_bswap_64_sse2 v b = v (64 * q + 8 * (7 - k) + r) := by
  subst hb
  rw [mm128_bswap_64_sse2]
  interval_cases q
  · rw [shufflehi_apply_pass _ _ _ (by omega),
      shufflelo_apply_low _ _ _ (k / 2) (8 * (k % 2) + r) _ (by omega) (by omega)
        (by omega) (sel_1b (k / 2) (by omega)),
      swap8in16_apply _ _ (3 - k / 2) (k % 2) r (by omega) (by omega) hr]
    exact congrArg v (by omega)
  · rw [shufflehi_apply_act _ _ _ (k / 2) (8 * (k % 2) + r) _ (by omega) (by omega)
        (by omega) (sel_1b (k / 2) (by omega)),
      shufflelo_apply_high _ _ _ (by omega),
      swap8in16_apply _ _ (4 + (3 - k / 2)) (k % 2) r (by omega) (by omega) hr]
    exact congrArg v (by omega)

/-- Byte-level action of the SSE2 `mm128_bswap_32`: byte reversal within each
dword, identical to the SSSE3 tier. -/
theorem mm128_bswap_32_sse2_map (v : V) (b q k r : Nat)
    (hb : b = 32 * q + 8 * k + r) (hq : q < 4) (hk : k < 4) (hr : r < 8) :
    mm128_bswap_32_sse2 v b = v (32 * q + 8 * (3 - k) + r) := by
  subst hb
  rw [mm128_bswap_32_sse2]
  rcases Nat.lt_or_ge q 2 with hq2 | hq2
  · rw [shufflehi_apply_pass _ _ _ (by omega),
      shufflelo_apply_low _ _ _ (2 * q + k / 2) (8 * (k % 2) + r) _ (by omega)
        (by omega) (by omega) (sel_b1 (2 * q + k / 2) (by omega)),
      swap8in16_apply _ _ (2 * q + k / 2 + 1 - 2 * ((2 * q + k / 2) % 2)) (k % 2) r
        (by omega) (by omega) hr]
    exact congrArg v (by omega)
  · rw [shufflehi_apply_act _ _ _ (2 * q + k / 2 - 4) (8 * (k % 2) + r) _ (by omega)
        (by omega) (by omega) (sel_b1 (2 * q + k / 2 - 4) (by omega)),
      shufflelo_apply_high _ _ _ (by omega),
      swap8in16_apply _ _ (4 + (2 * q + k / 2 - 4 + 1 - 2 * ((2 * q + k / 2 - 4) % 2)))
        (k % 2) r (by omega) (by omega) hr]
    exact congrArg v (by omega)

theorem alignr_epi64_apply (a b : V) (c bit q r : Nat) (hb : bit = 64 * q + r)
    (hq : q < 8) (hr : r < 64) (hc : c < 16) :
    _mm512_alignr_epi64 a b c bit =
      if q + c < 8 then b (64 * (q + c) + r)
      else if q + c < 16 then a (64 * (q + c - 8) + r)
      else false := by
  subst hb
  simp only [_mm512_alignr_epi64]
  rw [show (64 * q + r) / 64 = q by omega, show (64 * q + r) % 64 = r by omega,
    Nat.mod_eq_of_lt hc]

theorem alignr_epi32_apply (a b : V) (c bit q r : Nat) (hb : bit = 32 * q + r)
    (hq : q < 16) (hr : r < 32) (hc : c < 32) :
    _mm512_alignr_epi32 a b c bit =
      if q + c < 16 then b (32 * (q + c) + r)
      else if q + c < 32 then a (32 * (q + c - 16) + r)
      else false := by
  subst hb
  simp only [_mm512_alignr_epi32]
  rw [show (32 * q + r) / 32 = q by omega, show (32 * q + r) % 32 = r by omega,
    Nat.mod_eq_of_lt hc]

theorem shufll64_shuflr64_512 (v : V) (b : Nat) (hb : b < 512) :
    mm512_shufll_64 (mm512_shuflr_64 v) b = v b := by
  obtain ⟨q, r, hq, hr, rfl⟩ : ∃ q r, q < 8 ∧ r < 64 ∧ b = 64 * q + r :=
    ⟨b / 64, b % 64, by omega, by omega, by omega⟩
  rw [mm512_shufll_64, alignr_epi64_apply _ _ 7 _ q r rfl hq hr (by omega)]
  rcases Nat.lt_or_ge (q + 7) 8 with h | h
  · rw [if_pos h, mm512_shuflr_64,
      alignr_epi64_apply v v 1 _ (q + 7) r rfl (by omega) hr (by omega),
      if_neg (by omega), if_pos (by omega)]
    exact congrArg v (by omega)
  · rw [if_neg (by omega), if_pos (by omega), mm512_shuflr_64,
      alignr_epi64_apply v v 1 _ (q + 7 - 8) r rfl (by omega) hr (by omega),
      if_pos (by omega)]
    exact congrArg v (by omega)

theorem shufll128_shuflr128_512 (v : V) (b : Nat) (hb : b < 512) :
    mm512_shufll_128 (mm512_shuflr_128 v) b = v b := by
  obtain ⟨q, r, hq, hr, rfl⟩ : ∃ q r, q < 8 ∧ r < 64 ∧ b = 64 * q + r :=
    ⟨b / 64, b % 64, by omega, by omega, by omega⟩
  rw [mm512_shufll_128, alignr_epi64_apply _ _ 6 _ q r rfl hq hr (by omega)]
  rcases Nat.lt_or_ge (q + 6) 8 with h | h
  · rw [if_pos h, mm512_shuflr_128,
      alignr_epi64_apply v v 2 _ (q + 6) r rfl (by omega) hr (by omega),
      if_neg (by omega), if_pos (by omega)]
    exact congrArg v (by omega)
  · rw [if_neg (by omega), if_pos (by omega), mm512_shuflr_128,
      alignr_epi64_apply v v 2 _ (q + 6 - 8) r rfl (by omega) hr (by omega),
      if_pos (by omega)]
    exact congrArg v (by omega)

theorem swap256_swap256_512 (v : V) (b : Nat) (hb : b < 512) :
    mm512_swap_256 (mm512_swap_256 v) b = v b := by
  obtain ⟨q, r, hq, hr, rfl⟩ : ∃ q r, q < 8 ∧ r < 64 ∧ b = 64 * q + r :=
    ⟨b / 64, b % 64, by omega, by omega, by omega⟩
  rw [mm512_swap_256, alignr_epi64_apply _ _ 4 _ q r rfl hq hr (by omega)]
  rcases Nat.lt_or_ge (q + 4) 8 with h | h
  · rw [if_pos h, mm512_swap_256,
      alignr_epi64_apply v v 4 _ (q + 4) r rfl (by omega) hr (by omega),
      if_neg (by omega), if_pos (by omega)]
    exact congrArg v (by omega)
  · rw [if_neg (by omega), if_pos (by omega), mm512_swap_256,
      alignr_epi64_apply v v 4 _ (q + 4 - 8) r rfl (by omega) hr (by omega),
      if_pos (by omega)]
    exact congrArg v (by omega)

theorem shufll32_shuflr32_512 (v : V) (b : Nat) (hb : b < 512) :
    mm512_shufll_32 (mm512_shuflr_32 v) b = v b := by
  obtain ⟨q, r, hq, hr, rfl⟩ : ∃ q r, q < 16 ∧ r < 32 ∧ b = 32 * q + r :=
    ⟨b / 32, b % 32, by omega, by omega, by omega⟩
  rw [mm512_shufll_32, alignr_epi32_apply _ _ 15 _ q r rfl hq hr (by omega)]
  rcases Nat.lt_or_ge (q + 15) 16 with h | h
  · rw [if_pos h, mm512_shuflr_32,
      alignr_epi32_apply v v 1 _ (q + 15) r rfl (by omega) hr (by omega),
      if_neg (by omega), if_pos (by omega)]
    exact congrArg v (by omega)
  · rw [if_neg (by omega), if_pos (by omega), mm512_shuflr_32,
      alignr_epi32_apply v v 1 _ (q + 15 - 16) r rfl (by omega) hr (by omega),
      if_pos (by omega)]
    exact congrArg v (by omega)

theorem shuffle_epi32_apply (v : V) (imm b lane d r e : Nat)
    (hb : b = 128 * lane + 32 * d + r) (hd : d < 4) (hr : r < 32)
    (he : imm / 4 ^ d % 4 = e) :
    _mm_shuffle_epi32 v imm b = v (128 * lane + 32 * e + r) := by
  subst hb
  simp only [_mm_shuffle_epi32]
  rw [show (128 * lane + 32 * d + r) / 128 = lane by omega,
    show (128 * lane + 32 * d + r) / 32 % 4 = d by omega, he,
    show (128 * lane + 32 * d + r) % 32 = r by omega]

theorem sel_39 : ∀ d, d < 4 → (0x39 : Nat) / 4 ^ d % 4 = (d + 1) % 4 := by decide

theorem sel_93 : ∀ d, d < 4 → (0x93 : Nat) / 4 ^ d % 4 = (d + 3) % 4 := by decide

theorem shufll32_shuflr32_128 (v : V) (b : Nat) (hb : b < 128) :
    mm128_shufll_32 (mm128_shuflr_32 v) b = v b := by
  obtain ⟨d, r, hd, hr, rfl⟩ : ∃ d r, d < 4 ∧ r < 32 ∧ b = 32 * d + r :=
    ⟨b / 32, b % 32, by omega, by omega, by omega⟩
  rw [mm128_shufll_32,
    shuffle_epi32_apply _ _ _ 0 d r _ (by omega) hd hr (sel_93 d hd),
    mm128_shuflr_32,
    shuffle_epi32_apply _ _ _ 0 ((d + 3) % 4) r _ rfl (by omega) hr
      (sel_39 ((d + 3) % 4) (by omega))]
  exact congrArg v (by omega)

theorem shufl2r_64_ssse3_eq_sse2 (v1 v2 : V) (b : Nat) (hb : b < 128) :
    mm128_shufl2r_64_ssse3 v1 v2 b = mm128_shufl2r_64_sse2 v1 v2 b := by
  simp only [mm128_shufl2r_64_ssse3, mm128_shufl2r_64_sse2, _mm_alignr_epi8,
    _mm_or_si128, _mm_srli_si128, _mm_slli_si128]
  split_ifs <;>
    first
      | (simp only [Bool.or_false, Bool.false_or]; exact congrArg _ (by omega))
      | (exfalso; omega)

theorem shufl2l_64_ssse3_eq_sse2 (v1 v2 : V) (b : Nat) (hb : b < 128) :
    mm128_shufl2l_64_ssse3 v1 v2 b = mm128_shufl2l_64_sse2 v1 v2 b := by
  simp only [mm128_shufl2l_64_ssse3, mm128_shufl2l_64_sse2, _mm_alignr_epi8,
    _mm_or_si128, _mm_srli_si128, _mm_slli_si128]
  split_ifs <;>
    first
      | (simp only [Bool.or_false, Bool.false_or]; exact congrArg _ (by omega))
      | (exfalso; omega)

/-- A ternary-logic instruction computes the boolean function encoded by its
truth-table immediate, bit for bit. -/
theorem ternarylogic_spec (imm : Nat) (f : Bool → Bool → Bool → Bool)
    (h : ∀ x y z : Bool,
      imm.testBit ((cond x 4 0) + (cond y 2 0) + (cond z 1 0)) = f x y z)
    (a b c : V) (bit : Nat) :
    _mm512_ternarylogic_epi64 a b c imm bit = f (a bit) (b bit) (c bit) := by
  simp only [_mm512_ternarylogic_epi64]
  exact h (a bit) (b bit) (c bit)

theorem xor3_sse2_spec (a b c : V) (bit : Nat) :
    mm128_xor3_sse2 a b c bit = xor (a bit) (xor (b bit) (c bit)) := by
  simp only [mm128_xor3_sse2, _mm_xor_si128]

theorem xorand_sse2_spec (a b c : V) (bit : Nat) :
    mm128_xorand_sse2 a b c bit = xor (a bit) (b bit && c bit) := by
  simp only [mm128_xorand_sse2, _mm_xor_si128, _mm_and_si128]

/-- Frame property of the `memset` loops: slots outside `[d, d+k)` keep their
old value. -/
theorem setLoop_frame (mem : Nat → V) (d : Nat) (a : V) (k j : Nat)
    (hj : j < d ∨ d + k ≤ j) : setLoop mem d a k j = mem j := by
  induction k with
  | zero => rfl
  | succ k ih =>
      simp only [setLoop]
      rw [if_neg (by omega)]
      exact ih (by omega)

/-- In-range effect of the `memset` loops: slot `d + i`, `i < k`, holds `a`. -/
theorem setLoop_set (mem : Nat → V) (d : Nat) (a : V) (k i : Nat)
    (hi : i < k) : setLoop mem d a k (d + i) = a := by
  induction k with
  | zero => omega
  | succ k ih =>
      simp only [setLoop]
      rcases Nat.lt_or_ge i k with h | h
      · rw [if_neg (by omega)]
        exact ih h
      · rw [if_pos (by omega)]

/-- Frame property of the `memcpy` loop: slots outside `[d, d+k)` keep their
old value. -/
theorem cpyLoop_frame (mem : Nat → V) (d s : Nat) (k j : Nat)
    (hj : j < d ∨ d + k ≤ j) : cpyLoop mem d s k j = mem j := by
  induction k with
  | zero => rfl
  | succ k ih =>
      simp only [cpyLoop]
      rw [if_neg (by omega)]
      exact ih (by omega)

/-- A non-overlapping `memcpy` copies: slot `d + i` ends up holding the
original value of slot `s + i`, provided the source range lies outside the
destination range. -/
theorem cpyLoop_copy (mem : Nat → V) (d s : Nat) :
    ∀ k, (∀ i, i < k → s + i < d ∨ d + k ≤ s + i) →
      ∀ i, i < k → cpyLoop mem d s k (d + i) = mem (s + i) := by
  intro k
  induction k with
  | zero => intro _ i hi; omega
  | succ k ih =>
      intro hdisj i hi
      simp only [cpyLoop]
      rcases Nat.lt_or_ge i k with h | h
      · rw [if_neg (by omega)]
        exact ih (fun i' hi' => by rcases hdisj i' (by omega) with h' | h' <;> omega)
          i h
      · have hik : i = k := by omega
        rw [hik, if_pos rfl]
        exact cpyLoop_frame mem d s k (s + k)
          (by rcases hdisj k (by omega) with h' | h' <;> omega)

/-- Reading back 64-bit element `k` of `m512_const_64` through the union view
returns the `k`-th argument (reduced to 64 bits). -/
theorem lane64_m512_const (i7 i6 i5 i4 i3 i2 i1 i0 k : Nat) (hk : k < 8) :
    lane64 k (m512_const_64 i7 i6 i5 i4 i3 i2 i1 i0) =
      qword8 i7 i6 i5 i4 i3 i2 i1 i0 k % 2 ^ 64 := by
  unfold lane64 m512_const_64
  rw [bitsToNat_congr _
      (fun j => (qword8 i7 i6 i5 i4 i3 i2 i1 i0 k).testBit (0 + j)) 64
      (fun j hj => by
        rw [show (64 * k + j) / 64 = k by omega, show (64 * k + j) % 64 = j by omega]
        simp),
    bitsToNat_testBit, pow_zero, Nat.div_one]

/-- Reading back any 32-bit element of the broadcast `m128_const1_32` returns
the broadcast value (reduced to 32 bits). -/
theorem lane32_m128_const1 (x k : Nat) (hk : k < 4) :
    lane32 k (m128_const1_32 x) = x % 2 ^ 32 := by
  unfold lane32 m128_const1_32
  rw [bitsToNat_congr _ (fun j => x.testBit (0 + j)) 32
      (fun j hj => by
        rw [shuffle_epi32_apply _ _ _ 0 k j 0 (by omega) hk hj (by simp)]
        simp only [mm128_mov32_128]
        rw [if_pos (by omega)]),
    bitsToNat_testBit, pow_zero, Nat.div_one]

/-- `mm128_insert_32` leaves every 32-bit element other than the target
unchanged. -/
theorem insert_32_preserves (v : V) (i c d r : Nat) (hc : c < 4) (hd : d < 4)
    (hdc : d ≠ c) (hr : r < 32) :
    mm128_insert_32 v i c (32 * d + r) = v (32 * d + r) := by
  simp only [mm128_insert_32, mm128_xim_32]
  rw [show c * 16 % 16 = 0 by omega]
  simp only [Nat.zero_testBit, Bool.false_eq_true, if_false]
  rw [if_neg (by omega)]

/-- Extracting the element just inserted returns the inserted value. -/
theorem extract_insert_32 (v : V) (i c : Nat) (hi : i < 2 ^ 32) (hc : c < 4) :
    mm128_extract_32 (mm128_insert_32 v i c) c = i := by
  unfold mm128_extract_32 u32_mov128_32
  rw [bitsToNat_congr _ (fun j => i.testBit (0 + j)) 32
      (fun bit hbit => by
        simp only [mm128_xim_32, mm128_insert_32, mm128_mov32_128]
        rw [show c * 64 % 16 = 0 by omega]
        simp only [Nat.zero_testBit, Bool.false_eq_true, if_false]
        rw [if_pos (by omega), show c * 16 % 16 = 0 by omega]
        simp only [Nat.zero_testBit, Bool.false_eq_true, if_false]
        rw [if_pos (by omega), if_pos (by omega)]
        rw [Nat.zero_add]
        exact congrArg (fun t => i.testBit t) (by omega)),
    bitsToNat_testBit, pow_zero, Nat.div_one, Nat.mod_eq_of_lt hi]

/-- A ternary-logic instruction applied with its second operand repeated (the
source's two-input `nor`/`xnor`/`nand` pattern) computes the boolean function
its truth table encodes on the diagonal. -/
theorem ternarylogic_spec2 (imm : Nat) (f : Bool → Bool → Bool)
    (h : ∀ x y : Bool,
      imm.testBit ((cond x 4 0) + (cond y 2 0) + (cond y 1 0)) = f x y)
    (a b : V) (bit : Nat) :
    _mm512_ternarylogic_epi64 a b b imm bit = f (a bit) (b bit) := by
  simp only [_mm512_ternarylogic_epi64]
  exact h (a bit) (b bit)

theorem tbl_3333 : ∀ n, n < 16 → (0x3333 : Nat).testBit n = decide (n % 4 < 2) := by
  decide

theorem tbl_4444 : ∀ n, n < 16 → (0x4444 : Nat).testBit n = decide (n % 4 = 2) := by
  decide

theorem tbl_1111 : ∀ n, n < 16 → (0x1111 : Nat).testBit n = decide (n % 4 = 0) := by
  decide

theorem tbl_shuflr64_24 : ∀ i, i < 16 →
    byteAt (_mm_set_epi64x 0x0a09080f0e0d0c0b 0x0201000706050403) i =
      8 * (i / 8) + (i % 8 + 3) % 8 := by decide

theorem tbl_shuflr64_16 : ∀ i, i < 16 →
    byteAt (_mm_set_epi64x 0x09080f0e0d0c0b0a 0x0100070605040302) i =
      8 * (i / 8) + (i % 8 + 2) % 8 := by decide

theorem tbl_swap32_16 : ∀ i, i < 16 →
    byteAt (_mm_set_epi64x 0x0d0c0f0e09080b0a 0x0504070601000302) i =
      4 * (i / 4) + (i % 4 + 2) % 4 := by decide

theorem tbl_shuflr32_8 : ∀ i, i < 16 →
    byteAt (_mm_set_epi64x 0x0c0f0e0d080b0a09 0x0407060500030201) i =
      4 * (i / 4) + (i % 4 + 1) % 4 := by decide

/-- The SSSE3 PSHUFB tier of `mm128_shuflr64_24` equals its fallback,
`mm128_ror_64( v, 24 )` in native form. -/
theorem shuflr64_24_ssse3_eq_ror (v : V) (b : Nat) (hb : b < 128) :
    mm128_shuflr64_24_ssse3 v b = mm128_ror_64_avx512 v 24 b := by
  obtain ⟨i, r, hi, hr, hbi⟩ : ∃ i r, i < 16 ∧ r < 8 ∧ b = 8 * i + r :=
    ⟨b / 8, b % 8, by omega, by omega, by omega⟩
  rw [mm128_shuflr64_24_ssse3,
    shuffle_epi8_apply v _ b i r _ hbi hr (tbl_shuflr64_24 i hi) (by omega)]
  simp only [mm128_ror_64_avx512, _mm_ror_epi64, vror]
  exact congrArg v (by omega)

/-- The SSSE3 PSHUFB tier of `mm128_shuflr64_16` equals its fallback,
`mm128_ror_64( v, 16 )` in native form. -/
theorem shuflr64_16_ssse3_eq_ror (v : V) (b : Nat) (hb : b < 128) :
    mm128_shuflr64_16_ssse3 v b = mm128_ror_64_avx512 v 16 b := by
  obtain ⟨i, r, hi, hr, hbi⟩ : ∃ i r, i < 16 ∧ r < 8 ∧ b = 8 * i + r :=
    ⟨b / 8, b % 8, by omega, by omega, by omega⟩
  rw [mm128_shuflr64_16_ssse3,
    shuffle_epi8_apply v _ b i r _ hbi hr (tbl_shuflr64_16 i hi) (by omega)]
  simp only [mm128_ror_64_avx512, _mm_ror_epi64, vror]
  exact congrArg v (by omega)

/-- The SSSE3 PSHUFB tier of `mm128_swap32_16` equals its fallback,
`mm128_ror_32( v, 16 )` in native form. -/
theorem swap32_16_ssse3_eq_ror (v : V) (b : Nat) (hb : b < 128) :
    mm128_swap32_16_ssse3 v b = mm128_ror_32_avx512 v 16 b := by
  obtain ⟨i, r, hi, hr, hbi⟩ : ∃ i r, i < 16 ∧ r < 8 ∧ b = 8 * i + r :=
    ⟨b / 8, b % 8, by omega, by omega, by omega⟩
  rw [mm128_swap32_16_ssse3,
    shuffle_epi8_apply v _ b i r _ hbi hr (tbl_swap32_16 i hi) (by omega)]
  simp only [mm128_ror_32_avx512, _mm_ror_epi32, vror]
  exact congrArg v (by omega)

/-- The SSSE3 PSHUFB tier of `mm128_shuflr32_8` equals its fallback,
`mm128_ror_32( v, 8 )` in native form. -/
theorem shuflr32_8_ssse3_eq_ror (v : V) (b : Nat) (hb : b < 128) :
    mm128_shuflr32_8_ssse3 v b = mm128_ror_32_avx512 v 8 b := by
  obtain ⟨i, r, hi, hr, hbi⟩ : ∃ i r, i < 16 ∧ r < 8 ∧ b = 8 * i + r :=
    ⟨b / 8, b % 8, by omega, by omega, by omega⟩
  rw [mm128_shuflr32_8_ssse3,
    shuffle_epi8_apply v _ b i r _ hbi hr (tbl_shuflr32_8 i hi) (by omega)]
  simp only [mm128_ror_32_avx512, _mm_ror_epi32, vror]
  exact congrArg v (by omega)

/-- The SSE4.1 insert-based `m128_const_64` equals the SSE2 `_mm_set_epi64x`
form, bit for bit. -/
theorem const64_sse41_eq_sse2 (hi lo b : Nat) :
    m128_const_64_sse41 hi lo b = m128_const_64 hi lo b := by
  simp only [m128_const_64_sse41, _mm_insert_epi64, mm128_mov64_128,
    m128_const_64, _mm_set_epi64x]
  split_ifs <;>
    first
      | rfl
      | (exact congrArg _ (by omega))
      | (exfalso; omega)

/-- If two per-slot functions agree on the 128 bits of the register whenever
their inputs do, the block loops built from them produce memories that agree
on the 128 bits of every slot. -/
theorem bswapLoop_eq (f g : V → V)
    (hfg : ∀ v w : V, (∀ b, b < 128 → v b = w b) → ∀ b, b < 128 → f v b = g w b)
    (mem : Nat → V) (d s : Nat) :
    ∀ k j b, b < 128 → bswapLoop f mem d s k j b = bswapLoop g mem d s k j b := by
  intro k
  induction k with
  | zero => intro j b hb; rfl
  | succ k ih =>
      intro j b hb
      simp only [bswapLoop]
      by_cases hj : j = d + k
      · rw [if_pos hj, if_pos hj]
        exact hfg _ _ (fun bq hbq => ih (s + k) bq hbq) b hb
      · rw [if_neg hj, if_neg hj]
        exact ih j b hb

/-- The two tiers of the 64-bit byte swap agree on the register bits, reading
only the register bits of their input. -/
theorem bswap64_tiers_local (v w : V) (hvw : ∀ b, b < 128 → v b = w b)
    (b : Nat) (hb : b < 128) :
    mm128_bswap_64_ssse3 v b = mm128_bswap_64_sse2 w b := by
  obtain ⟨i, r, hi, hr, hbi⟩ : ∃ i r, i < 16 ∧ r < 8 ∧ b = 8 * i + r :=
    ⟨b / 8, b % 8, by omega, by omega, by omega⟩
  rw [mm128_bswap_64_ssse3_map v b i r hbi hi hr,
    mm128_bswap_64_sse2_map w b (i / 8) (i % 8) r (by omega) (by omega)
      (by omega) hr,
    hvw (8 * (8 * (i / 8) + (7 - i % 8)) + r) (by omega)]
  exact congrArg w (by omega)

/-- The two tiers of the 32-bit byte swap agree on the register bits, reading
only the register bits of their input. -/
theorem bswap32_tiers_local (v w : V) (hvw : ∀ b, b < 128 → v b = w b)
    (b : Nat) (hb : b < 128) :
    mm128_bswap_32_ssse3 v b = mm128_bswap_32_sse2 w b := by
  obtain ⟨i, r, hi, hr, hbi⟩ : ∃ i r, i < 16 ∧ r < 8 ∧ b = 8 * i + r :=
    ⟨b / 8, b % 8, by omega, by omega, by omega⟩
  rw [mm128_bswap_32_ssse3_map v b i r hbi hi hr,
    mm128_bswap_32_sse2_map w b (i / 4) (i % 4) r (by omega) (by omega)
      (by omega) hr,
    hvw (8 * (4 * (i / 4) + (3 - i % 4)) + r) (by omega)]
  exact congrArg w (by omega)

theorem block_bswap_64_ssse3_eq_sse2 (mem : Nat → V) (d s j b : Nat)
    (hb : b < 128) :
    mm128_block_bswap_64_ssse3 mem d s j b = mm128_block_bswap_64_sse2 mem d s j b :=
  bswapLoop_eq mm128_bswap_64_ssse3 mm128_bswap_64_sse2 bswap64_tiers_local
    mem d s 8 j b hb

theorem block_bswap_32_ssse3_eq_sse2 (mem : Nat → V) (d s j b : Nat)
    (hb : b < 128) :
    mm128_block_bswap_32_ssse3 mem d s j b = mm128_block_bswap_32_sse2 mem d s j b :=
  bswapLoop_eq mm128_bswap_32_ssse3 mm128_bswap_32_sse2 bswap32_tiers_local
    mem d s 8 j b hb

theorem tbl_shuflr16_512 : ∀ i, i < 32 →
    wordAt (m512_const_64 0x0000001F001E001D 0x001C001B001A0019
                          0x0018001700160015 0x0014001300120011
                          0x0010000F000E000D 0x000C000B000A0009
                          0x0008000700060005 0x0004000300020001) i % 32 =
      (i + 1) % 32 := by decide

theorem tbl_shufll16_512 : ∀ i, i < 32 →
    wordAt (m512_const_64 0x001E001D001C001B 0x001A001900180017
                          0x0016001500140013 0x001200110010000F
                          0x000E000D000C000B 0x000A000900080007
                          0x0006000500040003 0x000200010000001F) i % 32 =
      (i + 31) % 32 := by decide

theorem permutexvar_epi16_apply (idx v : V) (b i r e : Nat) (hb : b = 16 * i + r)
    (hr : r < 16) (he : wordAt idx i % 32 = e) :
    _mm512_permutexvar_epi16 idx v b = v (16 * e + r) := by
  subst hb
  simp only [_mm512_permutexvar_epi16]
  rw [show (16 * i + r) / 16 = i by omega, he, show (16 * i + r) % 16 = r by omega]

theorem shufll16_shuflr16_512 (v : V) (b : Nat) (hb : b < 512) :
    mm512_shufll_16 (mm512_shuflr_16 v) b = v b := by
  obtain ⟨i, r, hi, hr, hbi⟩ : ∃ i r, i < 32 ∧ r < 16 ∧ b = 16 * i + r :=
    ⟨b / 16, b % 16, by omega, by omega, by omega⟩
  rw [mm512_shufll_16,
    permutexvar_epi16_apply _ _ b i r _ hbi hr (tbl_shufll16_512 i hi),
    mm512_shuflr_16,
    permutexvar_epi16_apply _ _ _ ((i + 31) % 32) r _ rfl hr
      (tbl_shuflr16_512 ((i + 31) % 32) (by omega)),
    hbi]
  exact congrArg v (by omega)

theorem sel_4e : ∀ d, d < 4 → (0x4e : Nat) / 4 ^ d % 4 = (d + 2) % 4 := by decide

theorem shufll64_shuflr64_128 (v : V) (b : Nat) (hb : b < 128) :
    mm128_shufll_64 (mm128_shuflr_64 v) b = v b := by
  obtain ⟨d, r, hd, hr, hbi⟩ : ∃ d r, d < 4 ∧ r < 32 ∧ b = 32 * d + r :=
    ⟨b / 32, b % 32, by omega, by omega, by omega⟩
  simp only [mm128_shufll_64, mm128_shuflr_64, mm128_swap_64]
  rw [shuffle_epi32_apply _ 0x4e b 0 d r _ (by omega) hd hr (sel_4e d hd),
    shuffle_epi32_apply _ 0x4e _ 0 ((d + 2) % 4) r _ rfl (by omega) hr
      (sel_4e ((d + 2) % 4) (by omega)),
    hbi]
  exact congrArg v (by omega)

/-- C1: every logical operation the source offers at more than one capability
tier produces bit-identical output across the tiers, for all valid inputs.
Covered: 64/32-bit rotate right/left (AVX512VL native instruction vs SSE2
shift-or emulation); 32/64-bit byte swap (SSSE3 byte shuffle vs SSE2 shifts
and word shuffles); the two-vector concatenated shuffle
`mm128_shufl2r_64`/`mm128_shufl2l_64` (SSSE3 `alignr` vs SSE2 byte-shift-or);
the ternary `xor3`/`xorand` (AVX512VL `ternarylogic` vs SSE2 composition);
the byte rotations within lanes `mm128_shuflr64_24`, `mm128_shuflr64_16`,
`mm128_swap32_16`, `mm128_shuflr32_8` (SSSE3 PSHUFB table vs the
`mm128_ror_64`/`mm128_ror_32` fallback, stated against both of the fallback's
own tiers); `m128_const_64` (SSE4.1 insert vs SSE2 `_mm_set_epi64x`); the
two-output 256-bit rotates `mm128_vror256_64`/`mm128_vrol256_64` (SSSE3
`alignr` vs SSE2 byte-shift-or), component-wise; and the block byte swaps
`mm128_block_bswap_64`/`mm128_block_bswap_32` (SSSE3 vs SSE2), slot by slot
over memory.  The multi-tier macros that are code slips are settled under
their own claims: `mm128_rorx2_*` (C7), `mm128_diagonal_32` (C6), SSSE3
`mm128_bswap_16` (C4). -/
theorem claim_C1 (v v1 v2 a b c : V) (mem : Nat → V)
    (c64 c32 bit md ms j khi klo : Nat)
    (h64 : c64 < 64) (h32 : c32 < 32) (hbit : bit < 128) :
    mm128_ror_64_sse2 v c64 bit = mm128_ror_64_avx512 v c64 bit ∧
    mm128_rol_64_sse2 v c64 bit = mm128_rol_64_avx512 v c64 bit ∧
    mm128_ror_32_sse2 v c32 bit = mm128_ror_32_avx512 v c32 bit ∧
    mm128_rol_32_sse2 v c32 bit = mm128_rol_32_avx512 v c32 bit ∧
    mm128_bswap_32_ssse3 v bit = mm128_bswap_32_sse2 v bit ∧
    mm128_bswap_64_ssse3 v bit = mm128_bswap_64_sse2 v bit ∧
    mm128_shufl2r_64_ssse3 v1 v2 bit = mm128_shufl2r_64_sse2 v1 v2 bit ∧
    mm128_shufl2l_64_ssse3 v1 v2 bit = mm128_shufl2l_64_sse2 v1 v2 bit ∧
    mm128_xor3_avx512vl a b c bit = mm128_xor3_sse2 a b c bit ∧
    mm128_xorand_avx512vl a b c bit = mm128_xorand_sse2 a b c bit ∧
    mm128_shuflr64_24_ssse3 v bit = mm128_ror_64_avx512 v 24 bit ∧
    mm128_shuflr64_24_ssse3 v bit = mm128_ror_64_sse2 v 24 bit ∧
    mm128_shuflr64_16_ssse3 v bit = mm128_ror_64_avx512 v 16 bit ∧
    mm128_shuflr64_16_ssse3 v bit = mm128_ror_64_sse2 v 16 bit ∧
    mm128_swap32_16_ssse3 v bit = mm128_ror_32_avx512 v 16 bit ∧
    mm128_swap32_16_ssse3 v bit = mm128_ror_32_sse2 v 16 bit ∧
    mm128_shuflr32_8_ssse3 v bit = mm128_ror_32_avx512 v 8 bit ∧
    mm128_shuflr32_8_ssse3 v bit = mm128_ror_32_sse2 v 8 bit ∧
    m128_const_64_sse41 khi klo bit = m128_const_64 khi klo bit ∧
    (mm128_vror256_64_ssse3 v1 v2).1 bit = (mm128_vror256_64_sse2 v1 v2).1 bit ∧
    (mm128_vror256_64_ssse3 v1 v2).2 bit = (mm128_vror256_64_sse2 v1 v2).2 bit ∧
    (mm128_vrol256_64_ssse3 v1 v2).1 bit = (mm128_vrol256_64_sse2 v1 v2).1 bit ∧
    (mm128_vrol256_64_ssse3 v1 v2).2 bit = (mm128_vrol256_64_sse2 v1 v2).2 bit ∧
    mm128_block_bswap_64_ssse3 mem md ms j bit =
      mm128_block_bswap_64_sse2 mem md ms j bit ∧
    mm128_block_bswap_32_ssse3 mem md ms j bit =
      mm128_block_bswap_32_sse2 mem md ms j bit := by
  obtain ⟨i, r, hi, hr, hb⟩ : ∃ i r, i < 16 ∧ r < 8 ∧ bit = 8 * i + r :=
    ⟨bit / 8, bit % 8, by omega, by omega, by omega⟩
  refine ⟨ror64_sse2_eq_avx512 v c64 h64 bit,
    rol64_sse2_eq_avx512 v c64 h64 bit,
    ror32_sse2_eq_avx512 v c32 h32 bit,
    rol32_sse2_eq_avx512 v c32 h32 bit,
    ?_, ?_,
    shufl2r_64_ssse3_eq_sse2 v1 v2 bit hbit,
    shufl2l_64_ssse3_eq_sse2 v1 v2 bit hbit,
    ?_, ?_,
    shuflr64_24_ssse3_eq_ror v bit hbit,
    (shuflr64_24_ssse3_eq_ror v bit hbit).trans
      (ror64_sse2_eq_avx512 v 24 (by norm_num) bit).symm,
    shuflr64_16_ssse3_eq_ror v bit hbit,
    (shuflr64_16_ssse3_eq_ror v bit hbit).trans
      (ror64_sse2_eq_avx512 v 16 (by norm_num) bit).symm,
    swap32_16_ssse3_eq_ror v bit hbit,
    (swap32_16_ssse3_eq_ror v bit hbit).trans
      (ror32_sse2_eq_avx512 v 16 (by norm_num) bit).symm,
    shuflr32_8_ssse3_eq_ror v bit hbit,
    (shuflr32_8_ssse3_eq_ror v bit hbit).trans
      (ror32_sse2_eq_avx512 v 8 (by norm_num) bit).symm,
    const64_sse41_eq_sse2 khi klo bit,
    shufl2r_64_ssse3_eq_sse2 v1 v2 bit hbit,
    shufl2r_64_ssse3_eq_sse2 v2 v1 bit hbit,
    shufl2l_64_ssse3_eq_sse2 v1 v2 bit hbit,
    shufl2l_64_ssse3_eq_sse2 v2 v1 bit hbit,
    block_bswap_64_ssse3_eq_sse2 mem md ms j bit hbit,
    block_bswap_32_ssse3_eq_sse2 mem md ms j bit hbit⟩
  · rw [mm128_bswap_32_ssse3_map v bit i r hb hi hr,
      mm128_bswap_32_sse2_map v bit (i / 4) (i % 4) r (by omega) (by omega)
        (by omega) hr]
    exact congrArg v (by omega)
  · rw [mm128_bswap_64_ssse3_map v bit i r hb hi hr,
      mm128_bswap_64_sse2_map v bit (i / 8) (i % 8) r (by omega) (by omega)
        (by omega) hr]
    exact congrArg v (by omega)
  · simp only [mm128_xor3_avx512vl, _mm_ternarylogic_epi64]
    rw [ternarylogic_spec 0x96 (fun x y z => xor x (xor y z)) (by decide) a b c bit,
      xor3_sse2_spec]
  · simp only [mm128_xorand_avx512vl, _mm_ternarylogic_epi64]
    rw [ternarylogic_spec 0x78 (fun x y z => xor x (y && z)) (by decide) a b c bit,
      xorand_sse2_spec]

theorem claim_C1_witness :
    ((5 : Nat) < 64 ∧ (7 : Nat) < 32 ∧ (9 : Nat) < 128) ∧
    mm128_ror_64_sse2 m128_zero 5 9 = mm128_ror_64_avx512 m128_zero 5 9 :=
  ⟨⟨by decide, by decide, by decide⟩,
   (claim_C1 m128_zero m128_zero m128_zero m128_zero m128_zero m128_zero
      (fun _ => m128_zero) 5 7 9 0 8 3 1 2
      (by decide) (by decide) (by decide)).1⟩

/-- C2: the named ternary combinators match the boolean function their bound
truth-table constant is supposed to encode, per lane bit and independently of
lane width (`ternarylogic` is fully bitwise), and the SSE2 emulations of
`xor3`/`xorand` agree with the AVX512VL truth-table forms — with one
exception: `mm512_nand`, documented in the source as `~( a & b )`, is bound to
the table `0xef`, whose bit at index `a*4 + b*2 + b = 4` (inputs `a = 1`,
`b = 0`) is `0`, although `~(1 & 0) = 1`; the last two conjuncts exhibit this
divergence at a concrete input (`a` all-ones, `b` all-zero, bit 0). -/
theorem claim_C2 :
    (∀ (a b c : V) (bit : Nat),
      mm512_xor3 a b c bit = xor (a bit) (xor (b bit) (c bit))) ∧
    (∀ (a b c : V) (bit : Nat),
      mm512_and3 a b c bit = ((a bit) && ((b bit) && (c bit)))) ∧
    (∀ (a b c : V) (bit : Nat),
      mm512_or3 a b c bit = ((a bit) || ((b bit) || (c bit)))) ∧
    (∀ (a b c : V) (bit : Nat),
      mm512_xorand a b c bit = xor (a bit) ((b bit) && (c bit))) ∧
    (∀ (a b c : V) (bit : Nat),
      mm512_andxor a b c bit = ((a bit) && xor (b bit) (c bit))) ∧
    (∀ (a b c : V) (bit : Nat),
      mm512_xoror a b c bit = xor (a bit) ((b bit) || (c bit))) ∧
    (∀ (a b c : V) (bit : Nat),
      mm512_xorandnot a b c bit = xor (a bit) ((!(b bit)) && (c bit))) ∧
    (∀ (a b c : V) (bit : Nat),
      mm512_orand a b c bit = ((a bit) || ((b bit) && (c bit)))) ∧
    (∀ (a b : V) (bit : Nat), mm512_nor a b bit = (!((a bit) || (b bit)))) ∧
    (∀ (a b : V) (bit : Nat), mm512_xnor a b bit = (!(xor (a bit) (b bit)))) ∧
    (∀ (a b c : V) (bit : Nat),
      mm128_xor3_avx512vl a b c bit = mm128_xor3_sse2 a b c bit) ∧
    (∀ (a b c : V) (bit : Nat),
      mm128_xorand_avx512vl a b c bit = mm128_xorand_sse2 a b c bit) ∧
    mm512_nand m512_neg1 m512_zero 0 = false ∧
    (!(m512_neg1 0 && m512_zero 0)) = true := by
  refine ⟨?_, ?_, ?_, ?_, ?_, ?_, ?_, ?_, ?_, ?_, ?_, ?_, by decide, by decide⟩
  · intro a b c bit
    simp only [mm512_xor3]
    exact ternarylogic_spec 0x96 (fun x y z => xor x (xor y z)) (by decide) a b c bit
  · intro a b c bit
    simp only [mm512_and3]
    exact ternarylogic_spec 0x80 (fun x y z => x && (y && z)) (by decide) a b c bit
  · intro a b c bit
    simp only [mm512_or3]
    exact ternarylogic_spec 0xfe (fun x y z => x || (y || z)) (by decide) a b c bit
  · intro a b c bit
    simp only [mm512_xorand]
    exact ternarylogic_spec 0x78 (fun x y z => xor x (y && z)) (by decide) a b c bit
  · intro a b c bit
    simp only [mm512_andxor]
    exact ternarylogic_spec 0x60 (fun x y z => x && xor y z) (by decide) a b c bit
  · intro a b c bit
    simp only [mm512_xoror]
    exact ternarylogic_spec 0x1e (fun x y z => xor x (y || z)) (by decide) a b c bit
  · intro a b c bit
    simp only [mm512_xorandnot]
    exact ternarylogic_spec 0xd2 (fun x y z => xor x ((!y) && z)) (by decide)
      a b c bit
  · intro a b c bit
    simp only [mm512_orand]
    exact ternarylogic_spec 0xf8 (fun x y z => x || (y && z)) (by decide) a b c bit
  · intro a b bit
    simp only [mm512_nor]
    exact ternarylogic_spec2 0x01 (fun x y => !(x || y)) (by decide) a b bit
  · intro a b bit
    simp only [mm512_xnor]
    exact ternarylogic_spec2 0x81 (fun x y => !(xor x y)) (by decide) a b bit
  · intro a b c bit
    simp only [mm128_xor3_avx512vl, _mm_ternarylogic_epi64]
    rw [ternarylogic_spec 0x96 (fun x y z => xor x (xor y z)) (by decide) a b c bit,
      xor3_sse2_spec]
  · intro a b c bit
    simp only [mm128_xorand_avx512vl, _mm_ternarylogic_epi64]
    rw [ternarylogic_spec 0x78 (fun x y z => xor x (y && z)) (by decide) a b c bit,
      xorand_sse2_spec]

/-- C3: for every supported lane width `w` (16, 32, 64), every rotation amount
`k < w` and every vector and bit, rotate-left of rotate-right by the same
amount is the identity, at every tier on which the rotate is offered (native
AVX512 rotates for 64/32-bit lanes at both register widths, the SSE2 shift-or
emulation for 64/32-bit lanes, and the shift-or 16-bit rotate, which is the
only 16-bit tier). -/
theorem claim_C3 (v : V) (k64 k32 k16 bit : Nat)
    (h64 : k64 < 64) (h32 : k32 < 32) (h16 : k16 < 16) :
    mm128_rol_64_sse2 (mm128_ror_64_sse2 v k64) k64 bit = v bit ∧
    mm128_rol_64_avx512 (mm128_ror_64_avx512 v k64) k64 bit = v bit ∧
    mm128_rol_32_sse2 (mm128_ror_32_sse2 v k32) k32 bit = v bit ∧
    mm128_rol_32_avx512 (mm128_ror_32_avx512 v k32) k32 bit = v bit ∧
    mm128_rol_16 (mm128_ror_16 v k16) k16 bit = v bit ∧
    mm512_rol_64 (mm512_ror_64 v k64) k64 bit = v bit ∧
    mm512_rol_32 (mm512_ror_32 v k32) k32 bit = v bit :=
  ⟨rol64_ror64_sse2 v k64 h64 bit, vrol_vror_64 v k64 bit,
   rol32_ror32_sse2 v k32 h32 bit, vrol_vror_32 v k32 bit,
   rol16_ror16 v k16 h16 bit, vrol_vror_64 v k64 bit, vrol_vror_32 v k32 bit⟩

theorem claim_C3_witness :
    ((5 : Nat) < 64 ∧ (6 : Nat) < 32 ∧ (7 : Nat) < 16) ∧
    mm128_rol_64_sse2 (mm128_ror_64_sse2 m128_zero 5) 5 8 = m128_zero 8 :=
  ⟨⟨by decide, by decide, by decide⟩,
   (claim_C3 m128_zero 5 6 7 8 (by decide) (by decide) (by decide)).1⟩

/-- C4: applying the endian byte swap twice returns the original vector for
every byte-swap implementation in the source that is well formed: both the
SSSE3 and SSE2 tiers of `mm128_bswap_64` and `mm128_bswap_32`, the SSE2
`mm128_bswap_16`, and the 512-bit `mm512_bswap_64`, `mm512_bswap_32`,
`mm512_bswap_16`.  (The SSSE3-tier `mm128_bswap_16` macro is missing its
closing parenthesis in the source and cannot compile, so no semantics exists
for it; see the claim record.) -/
theorem claim_C4 (v : V) (b1 b5 : Nat) (h1 : b1 < 128) (h5 : b5 < 512) :
    mm128_bswap_64_ssse3 (mm128_bswap_64_ssse3 v) b1 = v b1 ∧
    mm128_bswap_64_sse2 (mm128_bswap_64_sse2 v) b1 = v b1 ∧
    mm128_bswap_32_ssse3 (mm128_bswap_32_ssse3 v) b1 = v b1 ∧
    mm128_bswap_32_sse2 (mm128_bswap_32_sse2 v) b1 = v b1 ∧
    mm128_bswap_16_sse2 (mm128_bswap_16_sse2 v) b1 = v b1 ∧
    mm512_bswap_64 (mm512_bswap_64 v) b5 = v b5 ∧
    mm512_bswap_32 (mm512_bswap_32 v) b5 = v b5 ∧
    mm512_bswap_16 (mm512_bswap_16 v) b5 = v b5 := by
  obtain ⟨i, r, hi, hr, hb⟩ : ∃ i r, i < 16 ∧ r < 8 ∧ b1 = 8 * i + r :=
    ⟨b1 / 8, b1 % 8, by omega, by omega, by omega⟩
  obtain ⟨i5, r5, hi5, hr5, hb5⟩ : ∃ i5 r5, i5 < 64 ∧ r5 < 8 ∧ b5 = 8 * i5 + r5 :=
    ⟨b5 / 8, b5 % 8, by omega, by omega, by omega⟩
  refine ⟨?_, ?_, ?_, ?_, ?_, ?_, ?_, ?_⟩
  · rw [mm128_bswap_64_ssse3_map _ b1 i r hb hi hr,
      mm128_bswap_64_ssse3_map v _ (8 * (i / 8) + (7 - i % 8)) r rfl (by omega) hr,
      hb]
    exact congrArg v (by omega)
  · rw [mm128_bswap_64_sse2_map _ b1 (i / 8) (i % 8) r (by omega) (by omega)
        (by omega) hr,
      mm128_bswap_64_sse2_map v _ (i / 8) (7 - i % 8) r rfl (by omega) (by omega) hr,
      hb]
    exact congrArg v (by omega)
  · rw [mm128_bswap_32_ssse3_map _ b1 i r hb hi hr,
      mm128_bswap_32_ssse3_map v _ (4 * (i / 4) + (3 - i % 4)) r rfl (by omega) hr,
      hb]
    exact congrArg v (by omega)
  · rw [mm128_bswap_32_sse2_map _ b1 (i / 4) (i % 4) r (by omega) (by omega)
        (by omega) hr,
      mm128_bswap_32_sse2_map v _ (i / 4) (3 - i % 4) r rfl (by omega) (by omega) hr,
      hb]
    exact congrArg v (by omega)
  · simp only [mm128_bswap_16_sse2]
    rw [swap8in16_apply _ b1 (b1 / 16) (b1 % 16 / 8) (b1 % 8) (by omega) (by omega)
        (by omega),
      swap8in16_apply v _ (b1 / 16) (1 - b1 % 16 / 8) (b1 % 8) rfl (by omega)
        (by omega)]
    exact congrArg v (by omega)
  · rw [mm512_bswap_64_map _ b5 i5 r5 hb5 hi5 hr5,
      mm512_bswap_64_map v _ (8 * (i5 / 8) + (7 - i5 % 8)) r5 rfl (by omega) hr5,
      hb5]
    exact congrArg v (by omega)
  · rw [mm512_bswap_32_map _ b5 i5 r5 hb5 hi5 hr5,
      mm512_bswap_32_map v _ (4 * (i5 / 4) + (3 - i5 % 4)) r5 rfl (by omega) hr5,
      hb5]
    exact congrArg v (by omega)
  · rw [mm512_bswap_16_map _ b5 i5 r5 hb5 hi5 hr5,
      mm512_bswap_16_map v _ (2 * (i5 / 2) + (1 - i5 % 2)) r5 rfl (by omega) hr5,
      hb5]
    exact congrArg v (by omega)

theorem claim_C4_witness :
    ((9 : Nat) < 128 ∧ (11 : Nat) < 512) ∧
    mm128_bswap_64_ssse3 (mm128_bswap_64_ssse3 m128_zero) 9 = m128_zero 9 :=
  ⟨⟨by decide, by decide⟩,
   (claim_C4 m128_zero 9 11 (by decide) (by decide)).1⟩

/-- C5: a shuffle-rotate right by one element followed by a shuffle-rotate
left by one element at the same granularity is the identity, for every
well-formed granularity in the source: 16-bit, 32-bit, 64-bit and 128-bit
elements of the 512-bit vector, the 256-bit half swap (its own inverse), and
32-bit and 64-bit elements of the 128-bit vector (the 64-bit pair aliases the
half swap `mm128_swap_64`, its own inverse).  (The 8-bit-element macros
`mm512_shuflr_8` and `mm512_shufll_8` contain a stray `.` inside their
permutation-table literals and `mm512_shuflr_256`/`mm512_shufll_256` drop
their argument, so none of them compiles; see the claim record.) -/
theorem claim_C5 (v : V) (b1 b5 : Nat) (h1 : b1 < 128) (h5 : b5 < 512) :
    mm512_shufll_32 (mm512_shuflr_32 v) b5 = v b5 ∧
    mm512_shufll_64 (mm512_shuflr_64 v) b5 = v b5 ∧
    mm512_shufll_128 (mm512_shuflr_128 v) b5 = v b5 ∧
    mm512_swap_256 (mm512_swap_256 v) b5 = v b5 ∧
    mm512_shufll_16 (mm512_shuflr_16 v) b5 = v b5 ∧
    mm128_shufll_32 (mm128_shuflr_32 v) b1 = v b1 ∧
    mm128_shufll_64 (mm128_shuflr_64 v) b1 = v b1 :=
  ⟨shufll32_shuflr32_512 v b5 h5, shufll64_shuflr64_512 v b5 h5,
   shufll128_shuflr128_512 v b5 h5, swap256_swap256_512 v b5 h5,
   shufll16_shuflr16_512 v b5 h5,
   shufll32_shuflr32_128 v b1 h1, shufll64_shuflr64_128 v b1 h1⟩

theorem claim_C5_witness :
    ((9 : Nat) < 128 ∧ (11 : Nat) < 512) ∧
    mm512_shufll_32 (mm512_shuflr_32 m512_zero) 11 = m512_zero 11 :=
  ⟨⟨by decide, by decide⟩,
   (claim_C5 m512_zero 9 11 (by decide) (by decide)).1⟩

/-- C6: the diagonal blend property, proved for the one diagonal macro in the
source that is well formed, `mm512_diagonal128_32`: within every 128-bit lane,
32-bit element `e` of the output comes from input vector `e` — each output
position is sourced from exactly one input and every input contributes exactly
one position per lane.  (`mm512_diagonal_64` is missing a comma between its two
inner blends and `mm128_diagonal_32` uses the undefined names `s3..s0` and the
misspelled `mm_blend_epi32`/`mm_blend_epi16`, so neither compiles; see the
claim record.) -/
theorem claim_C6 (v3 v2 v1 v0 : V) (L r : Nat) (hL : L < 4) (hr : r < 32) :
    mm512_diagonal128_32 v3 v2 v1 v0 (128 * L + r) = v0 (128 * L + r) ∧
    mm512_diagonal128_32 v3 v2 v1 v0 (128 * L + 32 + r) = v1 (128 * L + 32 + r) ∧
    mm512_diagonal128_32 v3 v2 v1 v0 (128 * L + 64 + r) = v2 (128 * L + 64 + r) ∧
    mm512_diagonal128_32 v3 v2 v1 v0 (128 * L + 96 + r) = v3 (128 * L + 96 + r) := by
  refine ⟨?_, ?_, ?_, ?_⟩ <;>
    simp only [mm512_diagonal128_32, _mm512_mask_blend_epi32]
  · rw [show (128 * L + r) / 32 = 4 * L by omega, tbl_3333 _ (by omega),
      tbl_4444 _ (by omega), tbl_1111 _ (by omega), show (4 * L) % 4 = 0 by omega]
    simp
  · rw [show (128 * L + 32 + r) / 32 = 4 * L + 1 by omega, tbl_3333 _ (by omega),
      tbl_4444 _ (by omega), tbl_1111 _ (by omega),
      show (4 * L + 1) % 4 = 1 by omega]
    simp
  · rw [show (128 * L + 64 + r) / 32 = 4 * L + 2 by omega, tbl_3333 _ (by omega),
      tbl_4444 _ (by omega), tbl_1111 _ (by omega),
      show (4 * L + 2) % 4 = 2 by omega]
    simp
  · rw [show (128 * L + 96 + r) / 32 = 4 * L + 3 by omega, tbl_3333 _ (by omega),
      tbl_4444 _ (by omega), tbl_1111 _ (by omega),
      show (4 * L + 3) % 4 = 3 by omega]
    simp

theorem claim_C6_witness :
    ((1 : Nat) < 4 ∧ (2 : Nat) < 32) ∧
    mm512_diagonal128_32 m512_zero m512_zero m512_zero m512_zero (128 * 1 + 2) =
      m512_zero (128 * 1 + 2) :=
  ⟨⟨by decide, by decide⟩,
   (claim_C6 m512_zero m512_zero m512_zero m512_zero 1 2 (by decide) (by decide)).1⟩

/-- C7: the AVX512VL tier of the double-buffered rotate macro
`mm128_rorx2_64( v1, v0, c )` computes `_mm_ror_epi64( v0, c )` and
`_mm_ror_epi64( v1, c )` as bare expression statements and discards both
results, so `v1` and `v0` keep their old values; two independent single-vector
rotates would change them.  Concretely, with both vectors holding `1` in each
64-bit element and `c = 1`, the macro leaves bit 63 of each vector clear while
`_mm_ror_epi64` by 1 sets it. -/
theorem claim_C7 :
    (mm128_rorx2_64_avx512 (mm128_mov64_128 1) (mm128_mov64_128 1) 1).1 63 = false ∧
    (mm128_rorx2_64_avx512 (mm128_mov64_128 1) (mm128_mov64_128 1) 1).2 63 = false ∧
    _mm_ror_epi64 (mm128_mov64_128 1) 1 63 = true := by
  decide

/-- C8: constant construction places exactly the requested values in the
requested lanes: reading back 64-bit element `k` of
`m512_const_64( i7, ..., i0 )` through the union view returns literal `ik`
for every `k`, and every 32-bit element of the broadcast `m128_const1_32( x )`
equals `x` (arguments are `uint64_t`/`uint32_t`, hence the range
hypotheses). -/
theorem claim_C8 (i7 i6 i5 i4 i3 i2 i1 i0 x : Nat)
    (h7 : i7 < 2 ^ 64) (h6 : i6 < 2 ^ 64) (h5 : i5 < 2 ^ 64) (h4 : i4 < 2 ^ 64)
    (h3 : i3 < 2 ^ 64) (h2 : i2 < 2 ^ 64) (h1 : i1 < 2 ^ 64) (h0 : i0 < 2 ^ 64)
    (hx : x < 2 ^ 32) :
    lane64 0 (m512_const_64 i7 i6 i5 i4 i3 i2 i1 i0) = i0 ∧
    lane64 1 (m512_const_64 i7 i6 i5 i4 i3 i2 i1 i0) = i1 ∧
    lane64 2 (m512_const_64 i7 i6 i5 i4 i3 i2 i1 i0) = i2 ∧
    lane64 3 (m512_const_64 i7 i6 i5 i4 i3 i2 i1 i0) = i3 ∧
    lane64 4 (m512_const_64 i7 i6 i5 i4 i3 i2 i1 i0) = i4 ∧
    lane64 5 (m512_const_64 i7 i6 i5 i4 i3 i2 i1 i0) = i5 ∧
    lane64 6 (m512_const_64 i7 i6 i5 i4 i3 i2 i1 i0) = i6 ∧
    lane64 7 (m512_const_64 i7 i6 i5 i4 i3 i2 i1 i0) = i7 ∧
    lane32 0 (m128_const1_32 x) = x ∧
    lane32 1 (m128_const1_32 x) = x ∧
    lane32 2 (m128_const1_32 x) = x ∧
    lane32 3 (m128_const1_32 x) = x := by
  refine ⟨?_, ?_, ?_, ?_, ?_, ?_, ?_, ?_, ?_, ?_, ?_, ?_⟩
  · rw [lane64_m512_const i7 i6 i5 i4 i3 i2 i1 i0 0 (by omega)]
    exact Nat.mod_eq_of_lt h0
  · rw [lane64_m512_const i7 i6 i5 i4 i3 i2 i1 i0 1 (by omega)]
    exact Nat.mod_eq_of_lt h1
  · rw [lane64_m512_const i7 i6 i5 i4 i3 i2 i1 i0 2 (by omega)]
    exact Nat.mod_eq_of_lt h2
  · rw [lane64_m512_const i7 i6 i5 i4 i3 i2 i1 i0 3 (by omega)]
    exact Nat.mod_eq_of_lt h3
  · rw [lane64_m512_const i7 i6 i5 i4 i3 i2 i1 i0 4 (by omega)]
    exact Nat.mod_eq_of_lt h4
  · rw [lane64_m512_const i7 i6 i5 i4 i3 i2 i1 i0 5 (by omega)]
    exact Nat.mod_eq_of_lt h5
  · rw [lane64_m512_const i7 i6 i5 i4 i3 i2 i1 i0 6 (by omega)]
    exact Nat.mod_eq_of_lt h6
  · rw [lane64_m512_const i7 i6 i5 i4 i3 i2 i1 i0 7 (by omega)]
    exact Nat.mod_eq_of_lt h7
  · rw [lane32_m128_const1 x 0 (by omega)]
    exact Nat.mod_eq_of_lt hx
  · rw [lane32_m128_const1 x 1 (by omega)]
    exact Nat.mod_eq_of_lt hx
  · rw [lane32_m128_const1 x 2 (by omega)]
    exact Nat.mod_eq_of_lt hx
  · rw [lane32_m128_const1 x 3 (by omega)]
    exact Nat.mod_eq_of_lt hx

theorem claim_C8_witness :
    ((17 : Nat) < 2 ^ 64 ∧ (3735928559 : Nat) < 2 ^ 32) ∧
    lane64 0 (m512_const_64 24 23 22 21 20 19 18 17) = 17 :=
  ⟨⟨by norm_num, by norm_num⟩,
   (claim_C8 24 23 22 21 20 19 18 17 3735928559
      (by norm_num) (by norm_num) (by norm_num) (by norm_num) (by norm_num)
      (by norm_num) (by norm_num) (by norm_num) (by norm_num)).1⟩

/-- C9: the SSE4.1 insert/extract round trip at the 128-bit width:
`mm128_extract_32( mm128_insert_32( v, i, c ), c ) = i` for every element
index `c < 4` and 32-bit value `i`, and the three other 32-bit elements of
`mm128_insert_32( v, i, c )` equal the corresponding elements of `v`. -/
theorem claim_C9 (v : V) (i c : Nat) (hi : i < 2 ^ 32) (hc : c < 4) :
    mm128_extract_32 (mm128_insert_32 v i c) c = i ∧
    (∀ d r, d < 4 → d ≠ c → r < 32 →
      mm128_insert_32 v i c (32 * d + r) = v (32 * d + r)) :=
  ⟨extract_insert_32 v i c hi hc,
   fun d r hd hdc hr => insert_32_preserves v i c d r hc hd hdc hr⟩

theorem claim_C9_witness :
    ((77 : Nat) < 2 ^ 32 ∧ (2 : Nat) < 4) ∧
    mm128_extract_32 (mm128_insert_32 m128_zero 77 2) 2 = 77 :=
  ⟨⟨by norm_num, by norm_num⟩,
   (claim_C9 m128_zero 77 2 (by norm_num) (by norm_num)).1⟩

/-- C10: the block memory helpers touch exactly the slots they are asked to:
for every count `n`, the six loops write only slots `dst..dst+n-1` — every
other slot, in particular the entire source range of a non-overlapping copy,
keeps its old value — the `memset` forms store the requested value into every
slot of the range, and for `n ≤ 0` (the count parameter is a C `int`) no slot
at all is written. -/
theorem claim_C10 (mem : Nat → V) (a : V) (dst src : Nat) (n : Int) (j : Nat)
    (hj : j < dst ∨ dst + n.toNat ≤ j) :
    memset_zero_128 mem dst n j = mem j ∧
    memset_128 mem dst a n j = mem j ∧
    memcpy_128 mem dst src n j = mem j ∧
    memset_zero_512 mem dst n j = mem j ∧
    memset_512 mem dst a n j = mem j ∧
    memcpy_512 mem dst src n j = mem j ∧
    (∀ k, k < n.toNat →
      memset_128 mem dst a n (dst + k) = a ∧
      memset_512 mem dst a n (dst + k) = a ∧
      memset_zero_128 mem dst n (dst + k) = m128_zero ∧
      memset_zero_512 mem dst n (dst + k) = m512_zero) ∧
    (n ≤ 0 → ∀ j',
      memset_zero_128 mem dst n j' = mem j' ∧
      memset_128 mem dst a n j' = mem j' ∧
      memcpy_128 mem dst src n j' = mem j' ∧
      memset_zero_512 mem dst n j' = mem j' ∧
      memset_512 mem dst a n j' = mem j' ∧
      memcpy_512 mem dst src n j' = mem j') := by
  refine ⟨setLoop_frame mem dst m128_zero n.toNat j hj,
    setLoop_frame mem dst a n.toNat j hj,
    cpyLoop_frame mem dst src n.toNat j hj,
    setLoop_frame mem dst m512_zero n.toNat j hj,
    setLoop_frame mem dst a n.toNat j hj,
    cpyLoop_frame mem dst src n.toNat j hj,
    fun k hk => ⟨setLoop_set mem dst a n.toNat k hk,
      setLoop_set mem dst a n.toNat k hk,
      setLoop_set mem dst m128_zero n.toNat k hk,
      setLoop_set mem dst m512_zero n.toNat k hk⟩,
    fun hn j' => ?_⟩
  have h0 : n.toNat = 0 := Int.toNat_of_nonpos hn
  simp [memset_zero_128, memset_128, memcpy_128, memset_zero_512, memset_512,
    memcpy_512, h0, setLoop, cpyLoop]

theorem claim_C10_witness :
    ((0 : Nat) < 2 ∨ (2 : Nat) + (1 : Int).toNat ≤ 0) ∧
    memset_zero_128 (fun _ => m128_zero) 2 1 0 = (fun _ : Nat => m128_zero) 0 :=
  ⟨Or.inl (by decide),
   (claim_C10 (fun _ => m128_zero) m128_zero 2 4 1 0 (Or.inl (by decide))).1⟩
